import Mathlib

/-!
# Verification of the Quandoo restaurant-scraper

Shallow embedding of the two scraper variants of the repository:

* `restaurant_scraping_pydantic.py` (the async / pydantic variant), and
* `quandoo_webscraper_app.py` (the sequential / pandas variant).

Python strings are modelled as `List Char`; Python `float` values occurring in the
scraper (decimal score literals) as `ℚ`; Python `int` as `ℤ` (counters that start at
`0` and only increment as `ℕ`); fallible Python code (uncaught exceptions) as
`Except String _` values whose error label names the Python exception raised.
HTML documents ("soups") are modelled by a structure whose fields hold exactly the
results of the fixed BeautifulSoup queries the source performs; the network is a
total function from URL to soup, and every `extract_soup_from_webpage` call is
recorded in a fetch trace tagged by call site (listing page / detail page / menu
sub-page).
-/

/-! ## Python string primitives -/

/-- The whitespace characters recognised by Python's `str.strip()` / `int()` /
`float()` (restricted to those that can occur in the scraped text). -/
def pyIsSpace (c : Char) : Bool :=
  c == ' ' || c == '\t' || c == '\n' || c == '\r'

/-- Python `s.strip(chars)`: remove from both ends every character contained in
`bad` (a character *set*, not a suffix/prefix string). -/
def pyStrip (bad s : List Char) : List Char :=
  ((s.dropWhile bad.contains).reverse.dropWhile bad.contains).reverse

/-- Python `s.strip()` with no argument: strip whitespace from both ends. -/
def pyStripWs (s : List Char) : List Char :=
  ((s.dropWhile pyIsSpace).reverse.dropWhile pyIsSpace).reverse

/-- Numeric value of a digit string (most significant digit first). -/
def digitsVal (ds : List Char) : ℕ :=
  ds.foldl (fun a c => 10 * a + (c.toNat - 48)) 0

/-- A nonempty all-digit string. -/
def isDigits (ds : List Char) : Bool :=
  !ds.isEmpty && ds.all Char.isDigit

/-- Python `int(s)`: optional surrounding whitespace, optional sign, then a
nonempty digit string; anything else raises `ValueError` (modelled as `none`). -/
def parsePyInt (s : List Char) : Option ℤ :=
  match pyStripWs s with
  | '-' :: ds => if isDigits ds then some (-(digitsVal ds : ℤ)) else none
  | '+' :: ds => if isDigits ds then some ((digitsVal ds : ℤ)) else none
  | ds => if isDigits ds then some ((digitsVal ds : ℤ)) else none

/-- Unsigned part of Python `float(s)` restricted to plain decimal literals
(`"5"`, `"5."`, `".5"`, `"5.5"`); a restriction of Python's grammar that is sound
for every string the scraper can feed it. -/
def parseUnsignedFloat (cs : List Char) : Option ℚ :=
  let ip := cs.takeWhile Char.isDigit
  match cs.dropWhile Char.isDigit with
  | [] => if ip.isEmpty then none else some ((digitsVal ip : ℚ))
  | '.' :: fp =>
    if fp.all Char.isDigit && (!ip.isEmpty || !fp.isEmpty) then
      some ((digitsVal ip : ℚ) + (digitsVal fp : ℚ) / ((10 : ℚ) ^ fp.length))
    else none
  | _ => none

/-- Python `float(s)` on plain decimal literals with optional sign and
surrounding whitespace; `none` models a raised `ValueError`. -/
def parsePyFloat (s : List Char) : Option ℚ :=
  match pyStripWs s with
  | '-' :: cs => (parseUnsignedFloat cs).map (fun q => -q)
  | '+' :: cs => parseUnsignedFloat cs
  | cs => parseUnsignedFloat cs

/-- Boolean string-prefix test (Python `s.startswith(pat)`). -/
def pyStartsWith : List Char → List Char → Bool
  | [], _ => true
  | _ :: _, [] => false
  | c :: cs, d :: ds => c == d && pyStartsWith cs ds

/-- Python `s.endswith(suf)`. -/
def pyEndsWith (suf s : List Char) : Bool :=
  s.drop (s.length - suf.length) == suf

/-- Python `pat in s` (substring containment). -/
def pyContains (pat : List Char) : List Char → Bool
  | [] => pat.isEmpty
  | c :: rest => pyStartsWith pat (c :: rest) || pyContains pat rest

/-- Auxiliary fuel-indexed scanner for `pyReplace`; the fuel (initially the input
length) strictly bounds the number of scanning steps, so the `0`-fuel branch is
never reached on the initial call. -/
def pyReplaceAux (pat repl : List Char) : ℕ → List Char → List Char
  | _, [] => []
  | 0, s => s
  | fuel + 1, c :: cs =>
    if pyStartsWith pat (c :: cs) && !pat.isEmpty then
      repl ++ pyReplaceAux pat repl fuel (cs.drop (pat.length - 1))
    else
      c :: pyReplaceAux pat repl fuel cs

/-- Python `s.replace(old, new)`: leftmost, non-overlapping replacement of every
occurrence. -/
def pyReplace (pat repl s : List Char) : List Char :=
  pyReplaceAux pat repl s.length s

/-- Python `s.lower()` (ASCII case folding suffices for the city names used). -/
def pyLower (s : List Char) : List Char := s.map Char.toLower

/-- Python `","al...`.join, i.e. `sep.join(items)` specialised to `sep = ","`
as used by the address validator. -/
def joinComma : List (List Char) → List Char
  | [] => []
  | [x] => x
  | x :: xs => x ++ ',' :: joinComma xs

/-- Decimal rendering of a natural number (model of Python `str(n)`), fuel-indexed
by the number itself so that it is structurally recursive. -/
def natToCharsAux : ℕ → ℕ → List Char
  | 0, _ => []
  | fuel + 1, n =>
    if n < 10 then [Char.ofNat (48 + n)]
    else natToCharsAux fuel (n / 10) ++ [Char.ofNat (48 + n % 10)]

/-- Decimal rendering of a natural number. -/
def natToChars (n : ℕ) : List Char := natToCharsAux (n + 1) n

/-- Python `str(n)` for an integer (as interpolated into `&page={n}`). -/
def intToChars : ℤ → List Char
  | .ofNat n => natToChars n
  | .negSucc n => '-' :: natToChars (n + 1)

/-! ## HTML document model

A `Card` holds the results of the fixed BeautifulSoup queries the scrapers run
against one `div[data-qa="merchant-card-wrapper"]` fragment; a `Soup` holds the
results of the queries run against a whole document.  `none` models
`soup.find(...)` returning no element (so that `.text` on it raises
`AttributeError`). -/

/-- One restaurant card (`div[data-qa="merchant-card-wrapper"]`). -/
structure Card where
  /-- text of `h3[data-qa="merchant-name"]`, if the element exists -/
  merchant_name : Option (List Char)
  /-- text of `span[data-qa="merchant-location"]`, if the element exists -/
  merchant_location : Option (List Char)
  /-- text of `span[data-qa="merchant-card-cuisine"]`, if the element exists -/
  merchant_card_cuisine : Option (List Char)
  /-- text of `div[data-qa="reviews-score"]`, if the element exists -/
  reviews_score : Option (List Char)
  /-- texts of all `span` descendants (`find_all("span")`), in document order -/
  span_texts : List (List Char)
  /-- `find("a")`: `none` when the card has no anchor, `some h` when the first
  anchor exists and `h` is its `href` attribute (`none` when the attribute is
  missing, in which case Python interpolates the string `"None"`). -/
  first_anchor : Option (Option (List Char))
deriving DecidableEq

/-- A fetched document, pre-digested by the fixed queries the scrapers use. -/
structure Soup where
  /-- text of the document `<title>` -/
  title : List Char
  /-- texts of the `a` elements inside `div[data-qa="pagination-box"]`, in
  document order; `none` when the pagination container is absent -/
  pagination_anchor_texts : Option (List (List Char))
  /-- the restaurant cards (`find_all` on the card-wrapper marker), in order -/
  cards : List Card
  /-- texts of the `span`s inside `div[data-qa="restaurant-tags"]`; `none` when
  that container is absent (detail pages only) -/
  restaurant_tags_span_texts : Option (List (List Char))
  /-- texts of the `span`s inside `a[data-qa="merchant-address"]`; `none` when
  absent (detail pages only) -/
  merchant_address_span_texts : Option (List (List Char))
  /-- for every `h5` of the document (menu pages only): its text paired with the
  text of `find_next("div")` (`none` when no following `div` exists) -/
  h5_texts_with_next_div : List ((List Char) × Option (List Char))
deriving DecidableEq

/-- A fetch event, tagged by the call site that issued it. -/
inductive Fetch where
  /-- listing-page fetch issued by an orchestrator (`search_url` based) -/
  | listing : List Char → Fetch
  /-- detail-page fetch issued by `parse_restaurant_meta_data` -/
  | detail : List Char → Fetch
  /-- menu sub-page fetch issued by `parse_restaurant_menu` -/
  | menu : List Char → Fetch
deriving DecidableEq

/-- The listing-page URLs of a fetch trace, in order. -/
def listingUrls (tr : List Fetch) : List (List Char) :=
  tr.filterMap (fun f => match f with | .listing u => some u | _ => none)

/-- `Except` success test. -/
def exceptIsOk {α : Type} : Except String α → Bool
  | .ok _ => true
  | .error _ => false

/-! ## Shared URL constants -/

/-- `self.base_url` of the pydantic variant. -/
def base_url : List Char := "https://www.quandoo.de".toList

/-- `self.search_url` of the pydantic variant
(`f"{self.base_url}/en/result?destination={self.city_name}"`, city lower-cased). -/
def search_url (city_name : List Char) : List Char :=
  base_url ++ "/en/result?destination=".toList ++ pyLower city_name

/-- `self.url` of the pandas variant
(`f"https://www.quandoo.de/en/result?destination={self.city_name}"`). -/
def quandoo_url (city_name : List Char) : List Char :=
  "https://www.quandoo.de/en/result?destination=".toList ++ pyLower city_name

/-- `url + f"&page={page}"` as built by both orchestrators. -/
def pageUrl (url : List Char) (page : ℤ) : List Char :=
  url ++ "&page=".toList ++ intToChars page

/-- Python `range(lo, hi + 1)` over integers, as a list. -/
def intRange (lo hi : ℤ) : List ℤ :=
  (List.range (hi + 1 - lo).toNat).map (fun (i : ℕ) => lo + (i : ℤ))

/-! ## Pydantic data model (`restaurant_scraping_pydantic.py`)

Field validators run "before" (on raw strings); `restaurant_score` additionally
carries the pydantic constraint `Field(ge=0, lt=6)`.  An exception raised by a
validator, and a constraint violation, both surface as a pydantic
`ValidationError` that voids the record; the error labels below keep the
provenance (`"ValueError"` for an exception inside the validator,
`"ValidationError"` for a constraint / type failure). -/

/-- `RestaurantMenu` pydantic model. -/
structure RestaurantMenu where
  dish : List Char
  price : Option (List Char)
deriving DecidableEq

/-- `RestaurantMetaData` pydantic model (after validation). -/
structure RestaurantMetaData where
  restaurant_tags : List (List Char)
  restaurant_address : List Char
  restaurant_menu : List RestaurantMenu
deriving DecidableEq

/-- `RestaurantData` pydantic model (after validation). -/
structure RestaurantData where
  restaurant_name : List Char
  restaurant_location : List Char
  restaurant_cuisine : List Char
  restaurant_score : Option ℚ
  number_of_reviews : Option ℤ
  restaurant_url : List Char
  restaurant_meta_data : RestaurantMetaData
deriving DecidableEq

/-- `RestaurantData.get_parsed_location` (a field *serializer*):
`location.replace("Located at", "").strip()`. -/
def get_parsed_location (location : List Char) : List Char :=
  pyStripWs (pyReplace "Located at".toList [] location)

/-- `RestaurantData.get_parsed_restaurant_score` (before-validator):
`if score and score.endswith("/6"): return float(score.strip("/6"))` else `None`.
`float` on an unparsable remainder raises (label `"ValueError"`). -/
def get_parsed_restaurant_score (score : Option (List Char)) :
    Except String (Option ℚ) :=
  match score with
  | none => .ok none
  | some s =>
    if !s.isEmpty && pyEndsWith "/6".toList s then
      match parsePyFloat (pyStrip "/6".toList s) with
      | some q => .ok (some q)
      | none => .error "ValueError"
    else .ok none

/-- The full normalization of `restaurant_score`: the before-validator followed by
the pydantic field constraint `ge=0, lt=6` (violation → `ValidationError`). -/
def validate_restaurant_score (score : Option (List Char)) :
    Except String (Option ℚ) :=
  match get_parsed_restaurant_score score with
  | .error e => .error e
  | .ok none => .ok none
  | .ok (some q) => if 0 ≤ q ∧ q < 6 then .ok (some q) else .error "ValidationError"

/-- `RestaurantData.get_parsed_number_of_reviews` (before-validator):
`if number_of_reviews: return int(number_of_reviews.strip("reviews"))` else
`None`. -/
def get_parsed_number_of_reviews (reviews : Option (List Char)) :
    Except String (Option ℤ) :=
  match reviews with
  | none => .ok none
  | some s =>
    if !s.isEmpty then
      match parsePyInt (pyStrip "reviews".toList s) with
      | some k => .ok (some k)
      | none => .error "ValueError"
    else .ok none

/-- `RestaurantMetaData.get_restaurant_address` (before-validator):
`",".join(address)` when the raw span list is non-empty, else `None` — and `None`
then fails the `restaurant_address: str` annotation. -/
def get_restaurant_address (address : List (List Char)) :
    Except String (List Char) :=
  if !address.isEmpty then .ok (joinComma address) else .error "ValidationError"

/-- Pydantic's `AnyHttpUrl` annotation, modelled as the http(s)-scheme check (the
part of the library validation that the scraper's URLs can exercise). -/
def validateAnyHttpUrl (u : List Char) : Except String (List Char) :=
  if pyStartsWith "http://".toList u || pyStartsWith "https://".toList u then .ok u
  else .error "ValidationError"

/-- `RestaurantData(**raw)`: run the validators in field-declaration order on the
raw dict assembled by `parse_individual_restaurant_data_from_scrape`. -/
def mkRestaurantData (name location cuisine : List Char)
    (score_raw reviews_raw : Option (List Char)) (url : List Char)
    (tags : List (List Char)) (address_raw : List (List Char))
    (menu : List RestaurantMenu) : Except String RestaurantData :=
  match validate_restaurant_score score_raw with
  | .error e => .error e
  | .ok score =>
  match get_parsed_number_of_reviews reviews_raw with
  | .error e => .error e
  | .ok reviews =>
  match validateAnyHttpUrl url with
  | .error e => .error e
  | .ok vurl =>
  match get_restaurant_address address_raw with
  | .error e => .error e
  | .ok addr =>
  .ok { restaurant_name := name, restaurant_location := location,
        restaurant_cuisine := cuisine, restaurant_score := score,
        number_of_reviews := reviews, restaurant_url := vurl,
        restaurant_meta_data := { restaurant_tags := tags, restaurant_address := addr,
                                  restaurant_menu := menu } }

/-! ## JSON output model

`model_dump_json` produces a JSON text; `combine_json_strings` maps `json.loads`
over such texts.  A JSON text and the dict parsed from it carry the same abstract
JSON value, modelled by `JsonVal`; the print/parse of the concrete text encoding
is the `json` library's own contract. -/

/-- An abstract JSON value. -/
inductive JsonVal where
  | jnull : JsonVal
  | jstr : List Char → JsonVal
  | jnum : ℚ → JsonVal
  | jarr : List JsonVal → JsonVal
  | jobj : List ((List Char) × JsonVal) → JsonVal

/-- `model_dump_json` of a `RestaurantMenu` item. -/
def dumpMenuItem (m : RestaurantMenu) : JsonVal :=
  .jobj [("dish".toList, .jstr m.dish),
         ("price".toList, match m.price with | some p => .jstr p | none => .jnull)]

/-- `model_dump_json` of the nested `RestaurantMetaData`. -/
def dumpMetaData (md : RestaurantMetaData) : JsonVal :=
  .jobj [("restaurant_tags".toList, .jarr (md.restaurant_tags.map (fun t => .jstr t))),
         ("restaurant_address".toList, .jstr md.restaurant_address),
         ("restaurant_menu".toList, .jarr (md.restaurant_menu.map dumpMenuItem))]

/-- `RestaurantData.model_dump_json()`: serialization applies the field
serializer `get_parsed_location` to `restaurant_location`. -/
def model_dump_json (r : RestaurantData) : JsonVal :=
  .jobj [("restaurant_name".toList, .jstr r.restaurant_name),
         ("restaurant_location".toList, .jstr (get_parsed_location r.restaurant_location)),
         ("restaurant_cuisine".toList, .jstr r.restaurant_cuisine),
         ("restaurant_score".toList,
           match r.restaurant_score with | some q => .jnum q | none => .jnull),
         ("number_of_reviews".toList,
           match r.number_of_reviews with | some k => .jnum (k : ℚ) | none => .jnull),
         ("restaurant_url".toList, .jstr r.restaurant_url),
         ("restaurant_meta_data".toList, dumpMetaData r.restaurant_meta_data)]

/-- `combine_json_strings`: `json.loads` over each serialized record — the
identity at the level of abstract JSON values. -/
def combine_json_strings (json_strings : List JsonVal) : List JsonVal :=
  json_strings

/-- Reading one serialized menu item back into record form (field-for-field). -/
def loadMenuItem : JsonVal → Option RestaurantMenu
  | .jobj [(k1, .jstr d), (k2, pv)] =>
    if k1 = "dish".toList ∧ k2 = "price".toList then
      match pv with
      | .jnull => some { dish := d, price := none }
      | .jstr p => some { dish := d, price := some p }
      | _ => none
    else none
  | _ => none

/-- Reading a serialized menu array back. -/
def loadMenuItems : List JsonVal → Option (List RestaurantMenu)
  | [] => some []
  | v :: vs =>
    match loadMenuItem v with
    | none => none
    | some m =>
      match loadMenuItems vs with
      | none => none
      | some ms => some (m :: ms)

/-- Reading a serialized string array back. -/
def loadStrings : List JsonVal → Option (List (List Char))
  | [] => some []
  | .jstr s :: vs => (loadStrings vs).map (fun ss => s :: ss)
  | _ => none

/-- Reading the serialized metadata back. -/
def loadMetaData : JsonVal → Option RestaurantMetaData
  | .jobj [(k1, .jarr tags), (k2, .jstr addr), (k3, .jarr menu)] =>
    if k1 = "restaurant_tags".toList ∧ k2 = "restaurant_address".toList ∧
        k3 = "restaurant_menu".toList then
      match loadStrings tags with
      | none => none
      | some ts =>
        match loadMenuItems menu with
        | none => none
        | some ms =>
          some { restaurant_tags := ts, restaurant_address := addr,
                 restaurant_menu := ms }
    else none
  | _ => none

/-- Reading an optional JSON number back (the `restaurant_score` field). -/
def loadOptNum : JsonVal → Option (Option ℚ)
  | .jnull => some none
  | .jnum q => some (some q)
  | _ => none

/-- Reading an optional JSON integer back (the `number_of_reviews` field). -/
def loadOptInt : JsonVal → Option (Option ℤ)
  | .jnull => some none
  | .jnum q => if q.den = 1 then some (some q.num) else none
  | _ => none

/-- Parsing one serialized record back into a `RestaurantData`, field for field. -/
def loadRestaurantData : JsonVal → Option RestaurantData
  | .jobj [(k1, .jstr name), (k2, .jstr loc), (k3, .jstr cui), (k4, sv), (k5, rv),
           (k6, .jstr url), (k7, mv)] =>
    if k1 = "restaurant_name".toList ∧ k2 = "restaurant_location".toList ∧
        k3 = "restaurant_cuisine".toList ∧ k4 = "restaurant_score".toList ∧
        k5 = "number_of_reviews".toList ∧ k6 = "restaurant_url".toList ∧
        k7 = "restaurant_meta_data".toList then
      match loadOptNum sv with
      | none => none
      | some score =>
      match loadOptInt rv with
      | none => none
      | some reviews =>
      match loadMetaData mv with
      | none => none
      | some md =>
        some { restaurant_name := name, restaurant_location := loc,
               restaurant_cuisine := cui, restaurant_score := score,
               number_of_reviews := reviews, restaurant_url := url,
               restaurant_meta_data := md }
    else none
  | _ => none

/-! ## Sequential (pandas) variant — `quandoo_webscraper_app.py` -/

/-- `QuandooRestaurantsWebScraper.UNKNOWN_ATTRIBUTE`. -/
def UNKNOWN_ATTRIBUTE : List Char := "Unknown".toList

/-- One row of the result dataframe (keys `Restaurant_name`, …). -/
structure ParsedRestaurantRow where
  Restaurant_name : List Char
  Restaurant_location : List Char
  Restaurant_cuisine : List Char
  Restaurant_score : Option ℚ
  Number_of_reviews : Option ℤ
deriving DecidableEq

/-- The score parse of the pandas variant:
`try: float(result.find(...).text.strip('/6')) except AttributeError: None`.
Only the *missing element* case is caught; `float` failure raises `ValueError`. -/
def parse_score_pandas (scoreText : Option (List Char)) :
    Except String (Option ℚ) :=
  match scoreText with
  | none => .ok none
  | some t =>
    match parsePyFloat (pyStrip "/6".toList t) with
    | some q => .ok (some q)
    | none => .error "ValueError"

/-- The review-count parse of the pandas variant: the last `span` whose text
contains `"reviews"`, then `int(text.strip('reviews'))` (uncaught `ValueError`
when unparsable); `None` when no such span exists. -/
def parse_reviews_pandas (spanTexts : List (List Char)) :
    Except String (Option ℤ) :=
  match (spanTexts.filter (fun t => pyContains "reviews".toList t)).getLast? with
  | none => .ok none
  | some t =>
    match parsePyInt (pyStrip "reviews".toList t) with
    | some k => .ok (some k)
    | none => .error "ValueError"

/-- The per-card body of `parse_required_data_from_soup`: each of name /
location / cuisine falls back to `UNKNOWN_ATTRIBUTE` when its element is absent
(`except AttributeError`); score and reviews are parsed as above. -/
def parse_card_pandas (c : Card) : Except String ParsedRestaurantRow :=
  match parse_score_pandas c.reviews_score with
  | .error e => .error e
  | .ok score =>
  match parse_reviews_pandas c.span_texts with
  | .error e => .error e
  | .ok reviews =>
  .ok { Restaurant_name := c.merchant_name.getD UNKNOWN_ATTRIBUTE,
        Restaurant_location := c.merchant_location.getD UNKNOWN_ATTRIBUTE,
        Restaurant_cuisine := c.merchant_card_cuisine.getD UNKNOWN_ATTRIBUTE,
        Restaurant_score := score, Number_of_reviews := reviews }

/-- The card loop of `parse_required_data_from_soup`: one row appended per card,
an uncaught exception aborts the whole page. -/
def parse_cards_pandas : List Card → Except String (List ParsedRestaurantRow)
  | [] => .ok []
  | c :: cs =>
    match parse_card_pandas c with
    | .error e => .error e
    | .ok row =>
      match parse_cards_pandas cs with
      | .error e => .error e
      | .ok rows => .ok (row :: rows)

/-- `QuandooRestaurantsWebScraper.parse_required_data_from_soup` (pandas
variant): `find_all` the card wrappers, build one row per card. -/
def parse_required_data_from_soup (soup : Soup) :
    Except String (List ParsedRestaurantRow) :=
  parse_cards_pandas soup.cards

/-- `find_last_page` of the pandas variant: last pagination anchor's text as
`int`, `None` when the pagination container is absent, `ValueError` when the
container has no anchors (`*_, last = [].find_all("a")` unpack) or the text is
not an integer. -/
def find_last_page (soup : Soup) : Except String (Option ℤ) :=
  match soup.pagination_anchor_texts with
  | some anchors =>
    match anchors.getLast? with
    | none => .error "ValueError"
    | some t =>
      match parsePyInt t with
      | some n => .ok (some n)
      | none => .error "ValueError"
  | none => .ok none

/-- The page loop of `obtain_scraped_data` over `range(2, last + 1)`:
fetch → parse → concat, an exception aborting the run. -/
def scrape_rest_pages_pandas (world : List Char → Soup) (url : List Char) :
    List ℤ → Except String (List ParsedRestaurantRow) × List Fetch
  | [] => (.ok [], [])
  | p :: ps =>
    let nextpage_url := pageUrl url p
    match parse_required_data_from_soup (world nextpage_url) with
    | .error e => (.error e, [.listing nextpage_url])
    | .ok rows =>
      match scrape_rest_pages_pandas world url ps with
      | (.error e, tr) => (.error e, .listing nextpage_url :: tr)
      | (.ok rest, tr) => (.ok (rows ++ rest), .listing nextpage_url :: tr)

/-- `QuandooRestaurantsWebScraper.obtain_scraped_data` (pandas variant).
`.ok none` models the `"Not found"` early return of `None`; `.ok (some rows)`
the final dataframe (rows in insertion order).  The second component is the
fetch trace.  `if determined_last_page:` is Python truthiness: both `None` and
`0` skip the page loop. -/
def obtain_scraped_data (world : List Char → Soup) (city_name : List Char) :
    Except String (Option (List ParsedRestaurantRow)) × List Fetch :=
  let url := quandoo_url city_name
  let first := world url
  if first.title = "Not found".toList then (.ok none, [.listing url])
  else
    match parse_required_data_from_soup first with
    | .error e => (.error e, [.listing url])
    | .ok firstRows =>
      match find_last_page first with
      | .error e => (.error e, [.listing url])
      | .ok none => (.ok (some firstRows), [.listing url])
      | .ok (some n) =>
        if n = 0 then (.ok (some firstRows), [.listing url])
        else
          match scrape_rest_pages_pandas world url (intRange 2 n) with
          | (.error e, tr) => (.error e, .listing url :: tr)
          | (.ok rest, tr) => (.ok (some (firstRows ++ rest)), .listing url :: tr)

/-! ## Async (pydantic) variant — `restaurant_scraping_pydantic.py` -/

/-- `find_last_page` of the pydantic variant: like the pandas one, but the
no-pagination case returns `1` instead of `None`. -/
def find_last_page_pydantic (soup : Soup) : Except String ℤ :=
  match soup.pagination_anchor_texts with
  | some anchors =>
    match anchors.getLast? with
    | none => .error "ValueError"
    | some t =>
      match parsePyInt t with
      | some n => .ok n
      | none => .error "ValueError"
  | none => .ok 1

/-- The menu loop of `parse_restaurant_menu`: every `h5` paired with
`find_next("div").text` (an absent following `div` raises `AttributeError`). -/
def parse_menu_items : List ((List Char) × Option (List Char)) →
    Except String (List RestaurantMenu)
  | [] => .ok []
  | (dish, priceTag) :: rest =>
    match priceTag with
    | none => .error "AttributeError"
    | some price =>
      match parse_menu_items rest with
      | .error e => .error e
      | .ok items => .ok ({ dish := dish, price := some price } :: items)

/-- `parse_restaurant_menu`: fetch `f"{restaurant_url}/menu"` and read the menu. -/
def parse_restaurant_menu (world : List Char → Soup) (restaurant_url : List Char) :
    Except String (List RestaurantMenu) × List Fetch :=
  let menu_url := restaurant_url ++ "/menu".toList
  (parse_menu_items (world menu_url).h5_texts_with_next_div, [.menu menu_url])

/-- The raw dict returned by `parse_restaurant_meta_data` (before pydantic
validation of the nested model). -/
structure RawMetaData where
  restaurant_tags : List (List Char)
  restaurant_address : List (List Char)
  restaurant_menu : List RestaurantMenu

/-- `parse_restaurant_meta_data`: fetch the detail page; a missing tags or
address container raises `AttributeError`; then fetch the menu sub-page. -/
def parse_restaurant_meta_data (world : List Char → Soup)
    (restaurant_url : List Char) : Except String RawMetaData × List Fetch :=
  let meta := world restaurant_url
  match meta.restaurant_tags_span_texts with
  | none => (.error "AttributeError", [.detail restaurant_url])
  | some tags =>
    match meta.merchant_address_span_texts with
    | none => (.error "AttributeError", [.detail restaurant_url])
    | some addr =>
      match parse_restaurant_menu world restaurant_url with
      | (.error e, tr) => (.error e, .detail restaurant_url :: tr)
      | (.ok menu, tr) =>
        (.ok { restaurant_tags := tags, restaurant_address := addr,
               restaurant_menu := menu }, .detail restaurant_url :: tr)

/-- `parse_individual_restaurant_data_from_scrape` followed by
`RestaurantData(**dict)`: name / location / cuisine are read unguarded (a missing
element raises `AttributeError` before any further fetch); score and the last
"reviews" span are read tolerantly; the card's first anchor provides the detail
URL; metadata is fetched; finally pydantic validation runs. -/
def parse_individual_restaurant_data_from_scrape (world : List Char → Soup)
    (c : Card) : Except String RestaurantData × List Fetch :=
  match c.merchant_name with
  | none => (.error "AttributeError", [])
  | some name =>
  match c.merchant_location with
  | none => (.error "AttributeError", [])
  | some location =>
  match c.merchant_card_cuisine with
  | none => (.error "AttributeError", [])
  | some cuisine =>
  let score_raw := c.reviews_score
  let reviews_raw := (c.span_texts.filter (fun t => pyContains "reviews".toList t)).getLast?
  match c.first_anchor with
  | none => (.error "AttributeError", [])
  | some href =>
  let restaurant_url :=
    base_url ++ (match href with | some h => h | none => "None".toList)
  match parse_restaurant_meta_data world restaurant_url with
  | (.error e, tr) => (.error e, tr)
  | (.ok md, tr) =>
    (mkRestaurantData name location cuisine score_raw reviews_raw restaurant_url
      md.restaurant_tags md.restaurant_address md.restaurant_menu, tr)

/-- The mutable orchestrator state: `self.scraped_restaurants_count` and
`self.reached_result_limit`. -/
structure ScrapeState where
  scraped_restaurants_count : ℕ
  reached_result_limit : Bool
deriving DecidableEq

/-- `parse_all_restaurant_data_from_single_page`: iterate the page's cards; at
the top of each iteration, if the accumulated count has reached
`result_limit`, set the flag and stop; otherwise scrape the card, append its
`model_dump_json`, and increment the count. -/
def parse_all_restaurant_data_from_single_page (world : List Char → Soup)
    (result_limit : ℤ) :
    ScrapeState → List Card → Except String (List JsonVal) × ScrapeState × List Fetch
  | st, [] => (.ok [], st, [])
  | st, c :: cs =>
    if result_limit ≤ (st.scraped_restaurants_count : ℤ) then
      (.ok [], { st with reached_result_limit := true }, [])
    else
      match parse_individual_restaurant_data_from_scrape world c with
      | (.error e, tr) => (.error e, st, tr)
      | (.ok r, tr) =>
        let st1 : ScrapeState :=
          { st with scraped_restaurants_count := st.scraped_restaurants_count + 1 }
        match parse_all_restaurant_data_from_single_page world result_limit st1 cs with
        | (.error e, st2, tr2) => (.error e, st2, tr ++ tr2)
        | (.ok rows, st2, tr2) => (.ok (model_dump_json r :: rows), st2, tr ++ tr2)

/-- The page loop of `obtain_scraped_result_for_city` over
`range(1, determined_last_page + 1)`: before each page, stop if the limit flag is
set; otherwise fetch `search_url + f"&page={page}"` and parse it (each page's
task completes before the next loop iteration). -/
def scrape_pages (world : List Char → Soup) (result_limit : ℤ) (surl : List Char) :
    ScrapeState → List ℤ → Except String (List (List JsonVal)) × List Fetch
  | _, [] => (.ok [], [])
  | st, p :: ps =>
    if st.reached_result_limit then (.ok [], [])
    else
      let nextpage_url := pageUrl surl p
      match parse_all_restaurant_data_from_single_page world result_limit st
          (world nextpage_url).cards with
      | (.error e, _, tr) => (.error e, .listing nextpage_url :: tr)
      | (.ok rows, st1, tr) =>
        match scrape_pages world result_limit surl st1 ps with
        | (.error e, tr2) => (.error e, (.listing nextpage_url :: tr) ++ tr2)
        | (.ok pages, tr2) => (.ok (rows :: pages), (.listing nextpage_url :: tr) ++ tr2)

/-- `QuandooRestaurantsWebScraper.obtain_scraped_result_for_city` (pydantic
variant): fetch page 1 at `search_url`; on the `"Not found"` title return `None`
immediately (`.ok none`); otherwise resolve the last page and run the page loop
from page 1; finally `combine_json_strings` each page's list and chain them in
page order into the written output (`.ok (some records)`). -/
def obtain_scraped_result_for_city (world : List Char → Soup)
    (city_name : List Char) (result_limit : ℤ) :
    Except String (Option (List JsonVal)) × List Fetch :=
  let surl := search_url city_name
  let first := world surl
  if first.title = "Not found".toList then (.ok none, [.listing surl])
  else
    match find_last_page_pydantic first with
    | .error e => (.error e, [.listing surl])
    | .ok n =>
      match scrape_pages world result_limit surl ⟨0, false⟩ (intRange 1 n) with
      | (.error e, tr) => (.error e, .listing surl :: tr)
      | (.ok pages, tr) =>
        (.ok (some (pages.map combine_json_strings).flatten), .listing surl :: tr)

/-! ## Basic lemmas -/

lemma exceptIsOk_iff {α : Type} (e : Except String α) :
    exceptIsOk e = true ↔ ∃ a, e = .ok a := by
  cases e <;> simp [exceptIsOk]

/-- Decidable equality for the `Except String` results of the embedded code. -/
instance {α : Type} [DecidableEq α] : DecidableEq (Except String α) := fun x y =>
  match x, y with
  | .error a, .error b =>
    if h : a = b then .isTrue (by rw [h]) else .isFalse (by simp [h])
  | .ok a, .ok b =>
    if h : a = b then .isTrue (by rw [h]) else .isFalse (by simp [h])
  | .error _, .ok _ => .isFalse (by simp)
  | .ok _, .error _ => .isFalse (by simp)

/-- Unfolding equation of `get_parsed_restaurant_score` at a present score. -/
lemma get_parsed_restaurant_score_some (s : List Char) :
    get_parsed_restaurant_score (some s) =
      if !s.isEmpty && pyEndsWith "/6".toList s then
        match parsePyFloat (pyStrip "/6".toList s) with
        | some q => .ok (some q)
        | none => .error "ValueError"
      else .ok none := rfl

/-- Unfolding equation of `parse_score_pandas` at a present score element. -/
lemma parse_score_pandas_some (t : List Char) :
    parse_score_pandas (some t) =
      match parsePyFloat (pyStrip "/6".toList t) with
      | some q => .ok (some q)
      | none => .error "ValueError" := rfl

/-- The pydantic score pipeline when the raw string parses to `q`: validation
reduces to the `0 ≤ q < 6` range gate. -/
lemma validate_score_of_parse (t : List Char) (q : ℚ) (he : t.isEmpty = false)
    (hp : pyEndsWith "/6".toList t = true)
    (hq : parsePyFloat (pyStrip "/6".toList t) = some q) :
    validate_restaurant_score (some t) =
      if 0 ≤ q ∧ q < 6 then .ok (some q) else .error "ValidationError" := by
  have h1 : get_parsed_restaurant_score (some t) = .ok (some q) := by
    rw [get_parsed_restaurant_score_some,
      show (!t.isEmpty && pyEndsWith "/6".toList t) = true by rw [he, hp]; rfl]
    simp only [if_true]
    rw [hq]
  unfold validate_restaurant_score
  rw [h1]

/-- The pydantic score pipeline when `float` raises on the stripped string. -/
lemma validate_score_parse_fail (t : List Char) (he : t.isEmpty = false)
    (hp : pyEndsWith "/6".toList t = true)
    (hq : parsePyFloat (pyStrip "/6".toList t) = none) :
    validate_restaurant_score (some t) = .error "ValueError" := by
  have h1 : get_parsed_restaurant_score (some t) = .error "ValueError" := by
    rw [get_parsed_restaurant_score_some,
      show (!t.isEmpty && pyEndsWith "/6".toList t) = true by rw [he, hp]; rfl]
    simp only [if_true]
    rw [hq]
  unfold validate_restaurant_score
  rw [h1]

/-- The pydantic score pipeline at an empty or non-`"/6"`-suffixed string. -/
lemma validate_score_no_suffix (t : List Char)
    (hb : (t.isEmpty || !pyEndsWith "/6".toList t) = true) :
    validate_restaurant_score (some t) = .ok none := by
  have hcond : (!t.isEmpty && pyEndsWith "/6".toList t) = false := by
    cases he : t.isEmpty <;> cases hp : pyEndsWith "/6".toList t <;> simp_all
  have h1 : get_parsed_restaurant_score (some t) = .ok none := by
    rw [get_parsed_restaurant_score_some, hcond]
    simp
  unfold validate_restaurant_score
  rw [h1]

/-! ## C2 — score normalization on `"<float>/6"` strings

The source computes `float(score.strip("/6"))`.  `str.strip` removes a
*character set* from both ends, so a float text ending in the digit `6` loses
that digit (and any adjacent `/`/`6` characters) before parsing: `"5.6/6"`
strips to `"5."` and parses as `5.0`, not `5.6`. -/

/-- C2: the claim "every `"<float>/6"` with `0 ≤ float < 6` normalizes to exactly
that float (e.g. `"5.6/6"` normalizes to `5.6`)" fails on the code at its own
example: both variants normalize `"5.6/6"` to `5`, and `5 ≠ 5.6 = 28/5`. -/
theorem C2_score_strip_slip :
    validate_restaurant_score (some "5.6/6".toList) = .ok (some 5) ∧
    parse_score_pandas (some "5.6/6".toList) = .ok (some 5) ∧
    (5 : ℚ) ≠ 28 / 5 := by
  have hq : parsePyFloat (pyStrip "/6".toList "5.6/6".toList)
      = some (((5 : ℕ) : ℚ) + ((0 : ℕ) : ℚ) / (10 : ℚ) ^ (0 : ℕ)) := rfl
  rw [show (((5 : ℕ) : ℚ) + ((0 : ℕ) : ℚ) / (10 : ℚ) ^ (0 : ℕ)) = 5 by norm_num]
    at hq
  refine ⟨?_, ?_, by norm_num⟩
  · rw [validate_score_of_parse "5.6/6".toList 5 rfl rfl hq]
    norm_num
  · rw [parse_score_pandas_some, hq]

/-! ## C3 — out-of-range / malformed scores are errors, not absent -/

/-- C3 counterexample: `"6/6"` strips to `""`, so `float` raises a `ValueError`,
and `"-1/6"` parses to `-1`, which the `ge=0` constraint rejects with a
`ValidationError` voiding the record — neither yields an absent score as the
claim states. -/
theorem C3_counterexample :
    validate_restaurant_score (some "6/6".toList) = .error "ValueError" ∧
    validate_restaurant_score (some "-1/6".toList) = .error "ValidationError" := by
  constructor
  · exact validate_score_parse_fail _ rfl rfl rfl
  · have hq : parsePyFloat (pyStrip "/6".toList "-1/6".toList)
        = some (-((1 : ℕ) : ℚ)) := rfl
    rw [show (-((1 : ℕ) : ℚ)) = -1 by norm_num] at hq
    rw [validate_score_of_parse "-1/6".toList (-1) rfl rfl hq]
    norm_num

/-- C3 amended: an absent score, or a string not ending in `"/6"`, normalizes to
absent; a string ending in `"/6"` whose stripped remainder does not parse as a
float raises an uncaught `ValueError`; a parsed value outside `[0, 6)` raises a
`ValidationError` that voids the record (never clamped and never coerced to
absent); and the pandas variant keeps any parsed value with no range check at
all (so `-1` is retained, not rejected). -/
theorem C3_amended (s : Option (List Char)) :
    (s = none → validate_restaurant_score s = .ok none) ∧
    (∀ t, s = some t → (t.isEmpty || !pyEndsWith "/6".toList t) = true →
      validate_restaurant_score s = .ok none) ∧
    (∀ t, s = some t → t.isEmpty = false → pyEndsWith "/6".toList t = true →
      parsePyFloat (pyStrip "/6".toList t) = none →
      validate_restaurant_score s = .error "ValueError") ∧
    (∀ t q, s = some t → t.isEmpty = false → pyEndsWith "/6".toList t = true →
      parsePyFloat (pyStrip "/6".toList t) = some q → ¬(0 ≤ q ∧ q < 6) →
      validate_restaurant_score s = .error "ValidationError") ∧
    (∀ t q, s = some t → parsePyFloat (pyStrip "/6".toList t) = some q →
      parse_score_pandas s = .ok (some q)) := by
  refine ⟨?_, ?_, ?_, ?_, ?_⟩
  · rintro rfl
    rfl
  · rintro t rfl hb
    exact validate_score_no_suffix t hb
  · rintro t rfl he hp hq
    exact validate_score_parse_fail t he hp hq
  · rintro t q rfl he hp hq hrange
    rw [validate_score_of_parse t q he hp hq, if_neg hrange]
  · rintro t q rfl hq
    rw [parse_score_pandas_some, hq]

/-- C3 witness: the amended statement evaluated at concrete inputs. -/
theorem C3_witness :
    validate_restaurant_score none = .ok none ∧
    validate_restaurant_score (some "great".toList) = .ok none ∧
    validate_restaurant_score (some "x/6".toList) = .error "ValueError" ∧
    validate_restaurant_score (some "-1/6".toList) = .error "ValidationError" ∧
    parse_score_pandas (some "-1/6".toList) = .ok (some (-((1 : ℕ) : ℚ))) := by
  refine ⟨(C3_amended none).1 rfl,
    (C3_amended _).2.1 "great".toList rfl (by decide),
    (C3_amended _).2.2.1 "x/6".toList rfl rfl rfl rfl,
    (C3_amended _).2.2.2.1 "-1/6".toList (-((1 : ℕ) : ℚ)) rfl rfl rfl rfl ?_,
    (C3_amended _).2.2.2.2 "-1/6".toList (-((1 : ℕ) : ℚ)) rfl rfl⟩
  intro h
  have := h.1
  norm_num at this

/-! ## C7 — the pagination resolver -/

/-- C7: when the pagination container is present, both variants return the
integer text of its *last* anchor; when it is absent, the pydantic variant
reports `1` and the pandas variant the distinguishable `None`; when it is
present but holds no anchors, both fail with an unpack `ValueError` instead of
silently returning `1`. -/
theorem C7_find_last_page (soup : Soup) :
    (∀ anchors t n, soup.pagination_anchor_texts = some anchors →
      anchors.getLast? = some t → parsePyInt t = some n →
      find_last_page_pydantic soup = .ok n ∧ find_last_page soup = .ok (some n)) ∧
    (soup.pagination_anchor_texts = none →
      find_last_page_pydantic soup = .ok 1 ∧ find_last_page soup = .ok none) ∧
    (soup.pagination_anchor_texts = some [] →
      find_last_page_pydantic soup = .error "ValueError" ∧
      find_last_page soup = .error "ValueError") := by
  refine ⟨?_, ?_, ?_⟩
  · intro anchors t n hpag hlast hint
    constructor <;> simp [find_last_page_pydantic, find_last_page, hpag, hlast, hint]
  · intro hpag
    constructor <;> simp [find_last_page_pydantic, find_last_page, hpag]
  · intro hpag
    constructor <;> simp [find_last_page_pydantic, find_last_page, hpag]

/-- A bare listing document with a given pagination container. -/
def soupPag (anchors : Option (List (List Char))) : Soup :=
  { title := "t".toList, pagination_anchor_texts := anchors, cards := [],
    restaurant_tags_span_texts := none, merchant_address_span_texts := none,
    h5_texts_with_next_div := [] }

/-- C7 witness: the three cases evaluated on concrete documents. -/
theorem C7_witness :
    (find_last_page_pydantic (soupPag (some ["1".toList, "17".toList])) = .ok 17 ∧
      find_last_page (soupPag (some ["1".toList, "17".toList])) = .ok (some 17)) ∧
    (find_last_page_pydantic (soupPag none) = .ok 1 ∧
      find_last_page (soupPag none) = .ok none) ∧
    (find_last_page_pydantic (soupPag (some [])) = .error "ValueError" ∧
      find_last_page (soupPag (some [])) = .error "ValueError") := by
  refine ⟨(C7_find_last_page _).1 _ "17".toList 17 rfl (by decide) (by decide),
    (C7_find_last_page _).2.1 rfl, (C7_find_last_page _).2.2 rfl⟩

/-! ## C10 — one row per card; missing required fields become `"Unknown"` -/

/-- Unfolding equation of the pandas card loop at a cons. -/
lemma parse_cards_pandas_cons (c : Card) (cs : List Card) :
    parse_cards_pandas (c :: cs) =
      match parse_card_pandas c with
      | .error e => .error e
      | .ok row =>
        match parse_cards_pandas cs with
        | .error e => .error e
        | .ok rows => .ok (row :: rows) := rfl

/-- The pandas card loop, when every card's score and review texts parse, yields
exactly one row per card, with `"Unknown"` substituted for each missing
name / location / cuisine element. -/
lemma parse_cards_pandas_spec (cards : List Card)
    (h : ∀ c ∈ cards, exceptIsOk (parse_score_pandas c.reviews_score) = true ∧
      exceptIsOk (parse_reviews_pandas c.span_texts) = true) :
    ∃ rows, parse_cards_pandas cards = .ok rows ∧
      rows.length = cards.length ∧
      rows.map (fun r => r.Restaurant_name)
        = cards.map (fun c => c.merchant_name.getD UNKNOWN_ATTRIBUTE) ∧
      rows.map (fun r => r.Restaurant_location)
        = cards.map (fun c => c.merchant_location.getD UNKNOWN_ATTRIBUTE) ∧
      rows.map (fun r => r.Restaurant_cuisine)
        = cards.map (fun c => c.merchant_card_cuisine.getD UNKNOWN_ATTRIBUTE) := by
  induction cards with
  | nil => exact ⟨[], rfl, rfl, rfl, rfl, rfl⟩
  | cons c cs ih =>
    obtain ⟨hs, hr⟩ := h c (List.mem_cons_self _ _)
    rw [exceptIsOk_iff] at hs hr
    obtain ⟨sc, hsc⟩ := hs
    obtain ⟨rv, hrv⟩ := hr
    obtain ⟨rows, hrows, hlen, hname, hloc, hcui⟩ :=
      ih (fun c' hc' => h c' (List.mem_cons_of_mem _ hc'))
    have hcard : parse_card_pandas c =
        .ok { Restaurant_name := c.merchant_name.getD UNKNOWN_ATTRIBUTE,
              Restaurant_location := c.merchant_location.getD UNKNOWN_ATTRIBUTE,
              Restaurant_cuisine := c.merchant_card_cuisine.getD UNKNOWN_ATTRIBUTE,
              Restaurant_score := sc, Number_of_reviews := rv } := by
      unfold parse_card_pandas
      rw [hsc, hrv]
    refine ⟨({ Restaurant_name := c.merchant_name.getD UNKNOWN_ATTRIBUTE,
               Restaurant_location := c.merchant_location.getD UNKNOWN_ATTRIBUTE,
               Restaurant_cuisine := c.merchant_card_cuisine.getD UNKNOWN_ATTRIBUTE,
               Restaurant_score := sc,
               Number_of_reviews := rv } : ParsedRestaurantRow) :: rows,
      ?_, ?_, ?_, ?_, ?_⟩
    · rw [parse_cards_pandas_cons, hcard, hrows]
    · simp [hlen]
    · simp [hname]
    · simp [hloc]
    · simp [hcui]

/-- C10: for every page, extraction yields exactly one row per restaurant-card
container (provided no card's score/review text raises, which missing elements
never do): a card missing its name, location, or cuisine element is never
skipped and never aborts the page — each such field is the sentinel
`"Unknown"`. -/
theorem C10_row_per_card (soup : Soup)
    (h : ∀ c ∈ soup.cards,
      exceptIsOk (parse_score_pandas c.reviews_score) = true ∧
      exceptIsOk (parse_reviews_pandas c.span_texts) = true) :
    ∃ rows, parse_required_data_from_soup soup = .ok rows ∧
      rows.length = soup.cards.length ∧
      rows.map (fun r => r.Restaurant_name)
        = soup.cards.map (fun c => c.merchant_name.getD UNKNOWN_ATTRIBUTE) ∧
      rows.map (fun r => r.Restaurant_location)
        = soup.cards.map (fun c => c.merchant_location.getD UNKNOWN_ATTRIBUTE) ∧
      rows.map (fun r => r.Restaurant_cuisine)
        = soup.cards.map (fun c => c.merchant_card_cuisine.getD UNKNOWN_ATTRIBUTE) :=
  parse_cards_pandas_spec soup.cards h

/-- A card with every queried element missing. -/
def emptyCard : Card :=
  { merchant_name := none, merchant_location := none, merchant_card_cuisine := none,
    reviews_score := none, span_texts := [], first_anchor := none }

/-- A page holding one complete card and one fully degenerate card. -/
def soupTwoCards : Soup :=
  { title := "t".toList, pagination_anchor_texts := none,
    cards := [{ merchant_name := some "N".toList,
                merchant_location := some "L".toList,
                merchant_card_cuisine := some "Cu".toList,
                reviews_score := none,
                span_texts := ["196 reviews".toList],
                first_anchor := some (some "/r".toList) }, emptyCard],
    restaurant_tags_span_texts := none, merchant_address_span_texts := none,
    h5_texts_with_next_div := [] }

/-- C10 witness: the theorem applied to `soupTwoCards`. -/
theorem C10_witness :
    ∃ rows, parse_required_data_from_soup soupTwoCards = .ok rows ∧
      rows.length = soupTwoCards.cards.length ∧
      rows.map (fun r => r.Restaurant_name)
        = soupTwoCards.cards.map (fun c => c.merchant_name.getD UNKNOWN_ATTRIBUTE) ∧
      rows.map (fun r => r.Restaurant_location)
        = soupTwoCards.cards.map (fun c => c.merchant_location.getD UNKNOWN_ATTRIBUTE) ∧
      rows.map (fun r => r.Restaurant_cuisine)
        = soupTwoCards.cards.map (fun c => c.merchant_card_cuisine.getD UNKNOWN_ATTRIBUTE) :=
  C10_row_per_card soupTwoCards (by decide)

/-! ## C8 — serialize / parse round-trip on records -/

/-- `loadStrings` inverts the serialization of a string array. -/
lemma loadStrings_dump (l : List (List Char)) :
    loadStrings (l.map (fun t => .jstr t)) = some l := by
  induction l with
  | nil => rfl
  | cons s ss ih => simp [loadStrings, ih]

/-- `loadMenuItem` inverts `dumpMenuItem`. -/
lemma loadMenuItem_dump (m : RestaurantMenu) :
    loadMenuItem (dumpMenuItem m) = some m := by
  obtain ⟨d, p⟩ := m
  cases p <;> simp [loadMenuItem, dumpMenuItem]

/-- `loadMenuItems` inverts the serialization of the menu array. -/
lemma loadMenuItems_dump (l : List RestaurantMenu) :
    loadMenuItems (l.map dumpMenuItem) = some l := by
  induction l with
  | nil => rfl
  | cons m ms ih => simp [loadMenuItems, loadMenuItem_dump, ih]

/-- `loadMetaData` inverts `dumpMetaData`. -/
lemma loadMetaData_dump (md : RestaurantMetaData) :
    loadMetaData (dumpMetaData md) = some md := by
  simp [loadMetaData, dumpMetaData, loadStrings_dump, loadMenuItems_dump]

/-- C8 amended: one serialize/parse cycle is the identity on every record whose
`restaurant_location` is a fixed point of the location serializer (no
`"Located at"` occurrence and no surrounding whitespace); on any other record
the cycle rewrites the location field, so the general claim fails (see the
counterexample), while all other fields always round-trip. -/
theorem C8_roundtrip (r : RestaurantData)
    (h : get_parsed_location r.restaurant_location = r.restaurant_location) :
    loadRestaurantData (model_dump_json r) = some r := by
  obtain ⟨name, loc, cui, score, rev, url, tags, addr, menu⟩ := r
  simp only at h
  cases score <;> cases rev <;>
    simp [loadRestaurantData, model_dump_json, dumpMetaData, loadMetaData,
      loadStrings_dump, loadMenuItems_dump, loadOptNum, loadOptInt, h,
      Rat.den_intCast, Rat.num_intCast]

/-- A record whose location still carries the `"Located at"` prefix. -/
def C8record : RestaurantData :=
  { restaurant_name := "N".toList,
    restaurant_location := "Located at Mitte".toList,
    restaurant_cuisine := "Cu".toList, restaurant_score := none,
    number_of_reviews := none,
    restaurant_url := "https://www.quandoo.de/r".toList,
    restaurant_meta_data :=
      { restaurant_tags := [], restaurant_address := "A 1".toList,
        restaurant_menu := [] } }

/-- The same record with its location normalized. -/
def C8recordNorm : RestaurantData :=
  { C8record with restaurant_location := "Mitte".toList }

/-- C8 counterexample: serializing and parsing back is *not* the identity on the
location field — the serializer strips `"Located at"`, so the reparsed record
differs from the original. -/
theorem C8_counterexample :
    loadRestaurantData (model_dump_json C8record) ≠ some C8record ∧
    loadRestaurantData (model_dump_json C8record) = some C8recordNorm ∧
    C8record ≠ C8recordNorm := by
  refine ⟨by decide, by decide, by decide⟩

/-- C8 witness: the amended round-trip evaluated on a normalized record. -/
theorem C8_witness :
    loadRestaurantData (model_dump_json C8recordNorm) = some C8recordNorm :=
  C8_roundtrip C8recordNorm (by decide)

/-! ## C4 — the "Not found" sentinel short-circuits the crawl -/

/-- C4: in both variants, a city whose first page's title is `"Not found"`
yields the empty result (`None` / no output file, modelled `.ok none`) and the
fetch trace is exactly the single page-1 listing fetch: no further network call
occurs, so enrichment and normalization never run. -/
theorem C4_no_data (worldA worldP : List Char → Soup) (cityA cityP : List Char)
    (L : ℤ)
    (hA : (worldA (search_url cityA)).title = "Not found".toList)
    (hP : (worldP (quandoo_url cityP)).title = "Not found".toList) :
    obtain_scraped_result_for_city worldA cityA L
      = (.ok none, [.listing (search_url cityA)]) ∧
    obtain_scraped_data worldP cityP = (.ok none, [.listing (quandoo_url cityP)]) := by
  constructor
  · simp only [obtain_scraped_result_for_city]
    rw [if_pos hA]
  · simp only [obtain_scraped_data]
    rw [if_pos hP]

/-- A web in which every document reports `"Not found"`. -/
def wNotFound : List Char → Soup := fun _ =>
  { title := "Not found".toList, pagination_anchor_texts := none, cards := [],
    restaurant_tags_span_texts := none, merchant_address_span_texts := none,
    h5_texts_with_next_div := [] }

/-- C4 witness: the theorem applied to the `"Not found"` web. -/
theorem C4_witness :
    obtain_scraped_result_for_city wNotFound "paris".toList 10
      = (.ok none, [.listing (search_url "paris".toList)]) ∧
    obtain_scraped_data wNotFound "paris".toList
      = (.ok none, [.listing (quandoo_url "paris".toList)]) :=
  C4_no_data wNotFound wNotFound "paris".toList "paris".toList 10 rfl rfl

/-! ## C6 — multi-page crawls concatenate pages in order -/

/-- `intRange lo hi` peels its first element when `lo ≤ hi`. -/
lemma intRange_eq_cons {lo hi : ℤ} (h : lo ≤ hi) :
    intRange lo hi = lo :: intRange (lo + 1) hi := by
  unfold intRange
  have h1 : (hi + 1 - lo).toNat = (hi + 1 - (lo + 1)).toNat + 1 := by omega
  rw [h1, List.range_succ_eq_map, List.map_cons, List.map_map]
  congr 1
  · simp
  · apply List.map_congr_left
    intro a _
    simp only [Function.comp]
    push_cast
    ring

/-- Membership in `intRange` is the pair of bounds. -/
lemma mem_intRange {p lo hi : ℤ} : p ∈ intRange lo hi ↔ lo ≤ p ∧ p ≤ hi := by
  unfold intRange
  simp only [List.mem_map, List.mem_range]
  constructor
  · rintro ⟨i, hi', rfl⟩
    omega
  · rintro ⟨h1, h2⟩
    exact ⟨(p - lo).toNat, by omega, by omega⟩

/-- A successful pandas page parse yields exactly one row per card. -/
lemma parse_cards_pandas_length :
    ∀ (cards : List Card) (rows : List ParsedRestaurantRow),
      parse_cards_pandas cards = .ok rows → rows.length = cards.length
  | [], rows, h => by
    simp only [parse_cards_pandas] at h
    cases h
    rfl
  | c :: cs, rows, h => by
    rw [parse_cards_pandas_cons] at h
    cases hc : parse_card_pandas c with
    | error e =>
      rw [hc] at h
      simp at h
    | ok row =>
      rw [hc] at h
      cases hcs : parse_cards_pandas cs with
      | error e =>
        rw [hcs] at h
        simp at h
      | ok rows' =>
        rw [hcs] at h
        simp only at h
        cases h
        have := parse_cards_pandas_length cs rows' hcs
        simp [this]

/-- The pandas page loop over given page numbers, when every page parses,
returns the pages' rows concatenated in page order and fetches exactly those
pages' URLs in order. -/
lemma scrape_rest_pages_pandas_spec (world : List Char → Soup) (url : List Char)
    (rowsOf : ℤ → List ParsedRestaurantRow) :
    ∀ ps : List ℤ,
      (∀ p ∈ ps,
        parse_required_data_from_soup (world (pageUrl url p)) = .ok (rowsOf p)) →
      scrape_rest_pages_pandas world url ps =
        (.ok (ps.map rowsOf).flatten, ps.map (fun p => .listing (pageUrl url p)))
  | [], _ => rfl
  | p :: ps, h => by
    have hp := h p (List.mem_cons_self _ _)
    have ih := scrape_rest_pages_pandas_spec world url rowsOf ps
      (fun q hq => h q (List.mem_cons_of_mem _ hq))
    simp only [scrape_rest_pages_pandas]
    rw [hp, ih]
    simp

/-- The pandas orchestrator on an `n ≥ 2`-page city: full result and trace. -/
lemma obtain_scraped_data_spec (world : List Char → Soup) (city : List Char)
    (n : ℤ) (rowsOf : ℤ → List ParsedRestaurantRow)
    (firstRows : List ParsedRestaurantRow)
    (htitle : (world (quandoo_url city)).title ≠ "Not found".toList)
    (hfirst : parse_required_data_from_soup (world (quandoo_url city)) = .ok firstRows)
    (hlast : find_last_page (world (quandoo_url city)) = .ok (some n))
    (hn : 2 ≤ n)
    (hpages : ∀ p ∈ intRange 2 n,
      parse_required_data_from_soup (world (pageUrl (quandoo_url city) p))
        = .ok (rowsOf p)) :
    obtain_scraped_data world city =
      (.ok (some (firstRows ++ ((intRange 2 n).map rowsOf).flatten)),
       .listing (quandoo_url city) ::
         (intRange 2 n).map (fun p => .listing (pageUrl (quandoo_url city) p))) := by
  have hrest := scrape_rest_pages_pandas_spec world (quandoo_url city) rowsOf
    (intRange 2 n) hpages
  have hn0 : ¬ n = 0 := by omega
  simp only [obtain_scraped_data, if_neg htitle, hfirst, hlast, hn0, if_false,
    hrest]

/-- C6: for a city with `n ≥ 2` listing pages (and the pandas variant's
limit-free crawl), the result is page 1's rows followed by the rows of pages
`2..n` in page order, each page's rows in card order — never reordered or
deduplicated — and the total count is the sum of the card counts of all pages. -/
theorem C6_page_then_card_order (world : List Char → Soup) (city : List Char)
    (n : ℤ) (rowsOf : ℤ → List ParsedRestaurantRow)
    (firstRows : List ParsedRestaurantRow)
    (htitle : (world (quandoo_url city)).title ≠ "Not found".toList)
    (hfirst : parse_required_data_from_soup (world (quandoo_url city)) = .ok firstRows)
    (hlast : find_last_page (world (quandoo_url city)) = .ok (some n))
    (hn : 2 ≤ n)
    (hpages : ∀ p ∈ intRange 2 n,
      parse_required_data_from_soup (world (pageUrl (quandoo_url city) p))
        = .ok (rowsOf p)) :
    obtain_scraped_data world city =
      (.ok (some (firstRows ++ ((intRange 2 n).map rowsOf).flatten)),
       .listing (quandoo_url city) ::
         (intRange 2 n).map (fun p => .listing (pageUrl (quandoo_url city) p))) ∧
    (firstRows ++ ((intRange 2 n).map rowsOf).flatten).length
      = (world (quandoo_url city)).cards.length
        + ((intRange 2 n).map
            (fun p => (world (pageUrl (quandoo_url city) p)).cards.length)).sum := by
  constructor
  · exact obtain_scraped_data_spec world city n rowsOf firstRows htitle hfirst
      hlast hn hpages
  · have h1 : firstRows.length = (world (quandoo_url city)).cards.length :=
      parse_cards_pandas_length _ _ hfirst
    have h2 : ((intRange 2 n).map rowsOf).map List.length
        = (intRange 2 n).map
            (fun p => (world (pageUrl (quandoo_url city) p)).cards.length) := by
      rw [List.map_map]
      apply List.map_congr_left
      intro p hp
      exact parse_cards_pandas_length _ _ (hpages p hp)
    rw [List.length_append, List.length_flatten, h1, h2]

/-- A complete listing card that needs no detail fetch data beyond defaults. -/
def pandasCard : Card :=
  { merchant_name := some "N".toList, merchant_location := some "L".toList,
    merchant_card_cuisine := some "Cu".toList, reviews_score := none,
    span_texts := [], first_anchor := none }

/-- The row the pandas extractor produces from `pandasCard`. -/
def pandasRow : ParsedRestaurantRow :=
  { Restaurant_name := "N".toList, Restaurant_location := "L".toList,
    Restaurant_cuisine := "Cu".toList, Restaurant_score := none,
    Number_of_reviews := none }

/-- A two-page pandas web: page 1 (with pagination `1, 2`) holds two cards,
page 2 holds one card. -/
def wPandas : List Char → Soup := fun url =>
  if url = quandoo_url "berlin".toList then
    { title := "T".toList,
      pagination_anchor_texts := some ["1".toList, "2".toList],
      cards := [pandasCard, pandasCard], restaurant_tags_span_texts := none,
      merchant_address_span_texts := none, h5_texts_with_next_div := [] }
  else
    { title := "T".toList, pagination_anchor_texts := none,
      cards := [pandasCard], restaurant_tags_span_texts := none,
      merchant_address_span_texts := none, h5_texts_with_next_div := [] }

/-- C6 witness: the theorem applied to the two-page pandas web. -/
theorem C6_witness :
    obtain_scraped_data wPandas "berlin".toList =
      (.ok (some ([pandasRow, pandasRow]
          ++ ((intRange 2 2).map (fun _ => [pandasRow])).flatten)),
       .listing (quandoo_url "berlin".toList) ::
         (intRange 2 2).map
           (fun p => .listing (pageUrl (quandoo_url "berlin".toList) p))) ∧
    ([pandasRow, pandasRow] ++ ((intRange 2 2).map (fun _ => [pandasRow])).flatten).length
      = (wPandas (quandoo_url "berlin".toList)).cards.length
        + ((intRange 2 2).map
            (fun p => (wPandas (pageUrl (quandoo_url "berlin".toList) p)).cards.length)).sum :=
  C6_page_then_card_order wPandas "berlin".toList 2 (fun _ => [pandasRow])
    [pandasRow, pandasRow] (by decide) (by decide) (by decide) (by omega)
    (by decide)

/-! ## Fetch-trace lemmas for the async variant -/

/-- `listingUrls` distributes over trace concatenation. -/
lemma listingUrls_append (a b : List Fetch) :
    listingUrls (a ++ b) = listingUrls a ++ listingUrls b :=
  List.filterMap_append a b _

/-- The metadata fetches of one restaurant contain no listing-page fetch. -/
lemma parse_restaurant_meta_data_trace (world : List Char → Soup) (u : List Char) :
    listingUrls (parse_restaurant_meta_data world u).2 = [] := by
  simp only [parse_restaurant_meta_data, parse_restaurant_menu]
  cases (world u).restaurant_tags_span_texts with
  | none => rfl
  | some tags =>
    cases (world u).merchant_address_span_texts with
    | none => rfl
    | some addr =>
      cases parse_menu_items (world (u ++ "/menu".toList)).h5_texts_with_next_div <;>
        rfl

/-- `listingUrls` on a listing fetch. -/
lemma listingUrls_cons_listing (u : List Char) (tr : List Fetch) :
    listingUrls (.listing u :: tr) = u :: listingUrls tr := rfl

/-- `listingUrls` ignores detail fetches. -/
lemma listingUrls_cons_detail (u : List Char) (tr : List Fetch) :
    listingUrls (.detail u :: tr) = listingUrls tr := rfl

/-- `listingUrls` ignores menu fetches. -/
lemma listingUrls_cons_menu (u : List Char) (tr : List Fetch) :
    listingUrls (.menu u :: tr) = listingUrls tr := rfl

/-- `listingUrls` of the empty trace. -/
lemma listingUrls_nil : listingUrls [] = [] := rfl

/-- Scraping one card issues no listing-page fetch. -/
lemma parse_individual_trace (world : List Char → Soup) (c : Card) :
    listingUrls (parse_individual_restaurant_data_from_scrape world c).2 = [] := by
  obtain ⟨mn, ml, mc, rs, sp, fa⟩ := c
  cases mn with
  | none => rfl
  | some name =>
  cases ml with
  | none => rfl
  | some location =>
  cases mc with
  | none => rfl
  | some cuisine =>
  cases fa with
  | none => rfl
  | some href =>
  cases href with
  | none =>
    cases hmd : parse_restaurant_meta_data world (base_url ++ "None".toList) with
    | mk res tr =>
      have htr := parse_restaurant_meta_data_trace world (base_url ++ "None".toList)
      rw [hmd] at htr
      dsimp only [parse_individual_restaurant_data_from_scrape]
      rw [hmd]
      cases res <;> simpa using htr
  | some h =>
    cases hmd : parse_restaurant_meta_data world (base_url ++ h) with
    | mk res tr =>
      have htr := parse_restaurant_meta_data_trace world (base_url ++ h)
      rw [hmd] at htr
      dsimp only [parse_individual_restaurant_data_from_scrape]
      rw [hmd]
      cases res <;> simpa using htr

/-- The per-page card loop issues no listing-page fetch. -/
lemma parse_all_trace (world : List Char → Soup) (L : ℤ) :
    ∀ (cards : List Card) (st : ScrapeState),
      listingUrls
        (parse_all_restaurant_data_from_single_page world L st cards).2.2 = []
  | [], st => rfl
  | c :: cs, st => by
    simp only [parse_all_restaurant_data_from_single_page]
    by_cases hL : L ≤ (st.scraped_restaurants_count : ℤ)
    · rw [if_pos hL]
      rfl
    · rw [if_neg hL]
      cases hpi : parse_individual_restaurant_data_from_scrape world c with
      | mk res tr1 =>
        have htr1 := parse_individual_trace world c
        rw [hpi] at htr1
        simp only at htr1
        cases res with
        | error e => simpa using htr1
        | ok r =>
          cases hrec : parse_all_restaurant_data_from_single_page world L
              { st with scraped_restaurants_count :=
                  st.scraped_restaurants_count + 1 } cs with
          | mk res2 str2 =>
            have ih := parse_all_trace world L cs
              { st with scraped_restaurants_count :=
                  st.scraped_restaurants_count + 1 }
            rw [hrec] at ih
            obtain ⟨st2, tr2⟩ := str2
            simp only at ih
            cases res2 <;> simp [listingUrls_append, htr1, ih]

/-- Once the limit flag is set, the page loop stops with no fetch at all. -/
lemma scrape_pages_reached (world : List Char → Soup) (L : ℤ) (surl : List Char) :
    ∀ (ps : List ℤ) (st : ScrapeState), st.reached_result_limit = true →
      scrape_pages world L surl st ps = (.ok [], [])
  | [], _, _ => rfl
  | p :: ps, st, h => by
    simp only [scrape_pages]
    rw [if_pos h]

/-- Every listing URL the page loop fetches is `url&page={p}` for one of its
page numbers `p`. -/
lemma scrape_pages_trace_sub (world : List Char → Soup) (L : ℤ) (surl : List Char) :
    ∀ (ps : List ℤ) (st : ScrapeState) (u : List Char),
      u ∈ listingUrls (scrape_pages world L surl st ps).2 →
      ∃ p ∈ ps, u = pageUrl surl p
  | [], st, u => by
    intro h
    simp [scrape_pages, listingUrls_nil] at h
  | p :: ps, st, u => by
    intro h
    simp only [scrape_pages] at h
    by_cases hfl : st.reached_result_limit = true
    · rw [if_pos hfl] at h
      simp [listingUrls_nil] at h
    · rw [if_neg hfl] at h
      cases hpa : parse_all_restaurant_data_from_single_page world L st
          (world (pageUrl surl p)).cards with
      | mk res str1 =>
        obtain ⟨st1, tr1⟩ := str1
        have hptr := parse_all_trace world L (world (pageUrl surl p)).cards st
        rw [hpa] at hptr
        simp only at hptr
        rw [hpa] at h
        cases res with
        | error e =>
          rw [show ((match ((Except.error e : Except String (List JsonVal)), st1, tr1) with
              | (Except.error e, _, tr) =>
                ((Except.error e : Except String (List (List JsonVal))),
                  Fetch.listing (pageUrl surl p) :: tr)
              | (Except.ok rows, st1, tr) =>
                match scrape_pages world L surl st1 ps with
                | (Except.error e, tr2) =>
                  (Except.error e, (Fetch.listing (pageUrl surl p) :: tr) ++ tr2)
                | (Except.ok pages, tr2) =>
                  (Except.ok (rows :: pages),
                    (Fetch.listing (pageUrl surl p) :: tr) ++ tr2)) :
              Except String (List (List JsonVal)) × List Fetch)
            = (Except.error e, Fetch.listing (pageUrl surl p) :: tr1) from rfl] at h
          rw [listingUrls_cons_listing, hptr] at h
          simp at h
          exact ⟨p, List.mem_cons_self _ _, h⟩
        | ok rows =>
          cases hrec : scrape_pages world L surl st1 ps with
          | mk res2 tr2 =>
            have ih := scrape_pages_trace_sub world L surl ps st1 u
            rw [hrec] at ih
            rw [show ((match ((Except.ok rows : Except String (List JsonVal)), st1, tr1) with
                | (Except.error e, _, tr) =>
                  ((Except.error e : Except String (List (List JsonVal))),
                    Fetch.listing (pageUrl surl p) :: tr)
                | (Except.ok rows, st1, tr) =>
                  match scrape_pages world L surl st1 ps with
                  | (Except.error e, tr2) =>
                    (Except.error e, (Fetch.listing (pageUrl surl p) :: tr) ++ tr2)
                  | (Except.ok pages, tr2) =>
                    (Except.ok (rows :: pages),
                      (Fetch.listing (pageUrl surl p) :: tr) ++ tr2)) :
                Except String (List (List JsonVal)) × List Fetch)
              = (match scrape_pages world L surl st1 ps with
                  | (Except.error e, tr2) =>
                    (Except.error e, (Fetch.listing (pageUrl surl p) :: tr1) ++ tr2)
                  | (Except.ok pages, tr2) =>
                    (Except.ok (rows :: pages),
                      (Fetch.listing (pageUrl surl p) :: tr1) ++ tr2)) from rfl] at h
            rw [hrec] at h
            cases res2 with
            | error e =>
              rw [show ((match ((Except.error e : Except String (List (List JsonVal))), tr2) with
                  | (Except.error e, tr2) =>
                    ((Except.error e : Except String (List (List JsonVal))),
                      (Fetch.listing (pageUrl surl p) :: tr1) ++ tr2)
                  | (Except.ok pages, tr2) =>
                    (Except.ok (rows :: pages),
                      (Fetch.listing (pageUrl surl p) :: tr1) ++ tr2)) :
                  Except String (List (List JsonVal)) × List Fetch)
                = (Except.error e, (Fetch.listing (pageUrl surl p) :: tr1) ++ tr2)
                from rfl] at h
              rw [show ((Fetch.listing (pageUrl surl p) :: tr1) ++ tr2)
                  = Fetch.listing (pageUrl surl p) :: (tr1 ++ tr2) from rfl,
                listingUrls_cons_listing, listingUrls_append, hptr] at h
              simp at h
              rcases h with h | h
              · exact ⟨p, List.mem_cons_self _ _, h⟩
              · obtain ⟨q, hq, hu⟩ := ih h
                exact ⟨q, List.mem_cons_of_mem _ hq, hu⟩
            | ok pages =>
              rw [show ((match ((Except.ok pages : Except String (List (List JsonVal))), tr2) with
                  | (Except.error e, tr2) =>
                    ((Except.error e : Except String (List (List JsonVal))),
                      (Fetch.listing (pageUrl surl p) :: tr1) ++ tr2)
                  | (Except.ok pages, tr2) =>
                    (Except.ok (rows :: pages),
                      (Fetch.listing (pageUrl surl p) :: tr1) ++ tr2)) :
                  Except String (List (List JsonVal)) × List Fetch)
                = (Except.ok (rows :: pages),
                    (Fetch.listing (pageUrl surl p) :: tr1) ++ tr2) from rfl] at h
              rw [show ((Fetch.listing (pageUrl surl p) :: tr1) ++ tr2)
                  = Fetch.listing (pageUrl surl p) :: (tr1 ++ tr2) from rfl,
                listingUrls_cons_listing, listingUrls_append, hptr] at h
              simp at h
              rcases h with h | h
              · exact ⟨p, List.mem_cons_self _ _, h⟩
              · obtain ⟨q, hq, hu⟩ := ih h
                exact ⟨q, List.mem_cons_of_mem _ hq, hu⟩

/-! ## C5 — listing URLs -/

/-- The async orchestrator's listing fetches: the bare `search_url` (page 1,
for the title check and pagination), then — whenever the crawl proceeds —
`search_url&page=1` (the loop re-requests page 1 *with* a page parameter),
then only URLs `search_url&page=p` with `2 ≤ p ≤ n`. -/
lemma obtain_scraped_result_trace_spec (world : List Char → Soup)
    (city : List Char) (L n : ℤ)
    (htitle : (world (search_url city)).title ≠ "Not found".toList)
    (hlast : find_last_page_pydantic (world (search_url city)) = .ok n)
    (hn : 1 ≤ n) :
    ∃ rest,
      listingUrls (obtain_scraped_result_for_city world city L).2
        = search_url city :: pageUrl (search_url city) 1 :: rest ∧
      ∀ u ∈ rest, ∃ p, 2 ≤ p ∧ p ≤ n ∧ u = pageUrl (search_url city) p := by
  have hrange : intRange 1 n = 1 :: intRange 2 n := by
    have := intRange_eq_cons hn
    simpa using this
  simp only [obtain_scraped_result_for_city, if_neg htitle, hlast, hrange]
  simp only [scrape_pages]
  rw [if_neg (by simp : ¬ (⟨0, false⟩ : ScrapeState).reached_result_limit = true)]
  cases hpa : parse_all_restaurant_data_from_single_page world L ⟨0, false⟩
      (world (pageUrl (search_url city) 1)).cards with
  | mk res str1 =>
    obtain ⟨st1, tr1⟩ := str1
    have hptr := parse_all_trace world L (world (pageUrl (search_url city) 1)).cards
      ⟨0, false⟩
    rw [hpa] at hptr
    simp only at hptr
    cases res with
    | error e =>
      refine ⟨[], ?_, by simp⟩
      simp [listingUrls_cons_listing, hptr]
    | ok rows =>
      cases hrec : scrape_pages world L (search_url city) st1 (intRange 2 n) with
      | mk res2 tr2 =>
        have hsub := scrape_pages_trace_sub world L (search_url city)
          (intRange 2 n) st1
        rw [hrec] at hsub
        refine ⟨listingUrls tr2, ?_, ?_⟩
        · cases res2 <;>
            simp [hrec, listingUrls_cons_listing, listingUrls_append, hptr]
        · intro u hu
          obtain ⟨p, hp, hup⟩ := hsub u hu
          obtain ⟨h2, h3⟩ := mem_intRange.1 hp
          exact ⟨p, h2, h3, hup⟩

/-- A web of empty listing pages (title present, no pagination, no cards). -/
def wAsyncEmpty : List Char → Soup := fun _ =>
  { title := "T".toList, pagination_anchor_texts := none, cards := [],
    restaurant_tags_span_texts := none, merchant_address_span_texts := none,
    h5_texts_with_next_div := [] }

/-- C5 counterexample: the async variant *does* issue a listing fetch carrying
`&page=1` — the page parameter is not reserved to pages `n > 1` as the claim
states. -/
theorem C5_counterexample :
    Fetch.listing (pageUrl (search_url "b".toList) 1)
      ∈ (obtain_scraped_result_for_city wAsyncEmpty "b".toList 10).2 := by
  decide

/-- C5 amended: the sequential (pandas) variant requests page 1 at
`{base_url}/en/result?destination={city}` with no page parameter and appends
`&page={p}` exactly for the pages `2..n`; the async (pydantic) variant fetches
the bare URL once for the title/pagination check but then re-requests *every*
page including page 1 with `&page={p}` appended, so its listing fetches are the
bare URL, then `&page=1`, then only `&page=p` with `2 ≤ p ≤ n`. -/
theorem C5_listing_urls (worldP worldA : List Char → Soup)
    (cityP cityA : List Char) (L n nA : ℤ)
    (rowsOf : ℤ → List ParsedRestaurantRow)
    (firstRows : List ParsedRestaurantRow)
    (htitleP : (worldP (quandoo_url cityP)).title ≠ "Not found".toList)
    (hfirstP : parse_required_data_from_soup (worldP (quandoo_url cityP))
      = .ok firstRows)
    (hlastP : find_last_page (worldP (quandoo_url cityP)) = .ok (some n))
    (hnP : 2 ≤ n)
    (hpagesP : ∀ p ∈ intRange 2 n,
      parse_required_data_from_soup (worldP (pageUrl (quandoo_url cityP) p))
        = .ok (rowsOf p))
    (htitleA : (worldA (search_url cityA)).title ≠ "Not found".toList)
    (hlastA : find_last_page_pydantic (worldA (search_url cityA)) = .ok nA)
    (hnA : 1 ≤ nA) :
    (obtain_scraped_data worldP cityP).2
      = .listing (quandoo_url cityP) ::
          (intRange 2 n).map (fun p => .listing (pageUrl (quandoo_url cityP) p)) ∧
    (∃ rest,
      listingUrls (obtain_scraped_result_for_city worldA cityA L).2
        = search_url cityA :: pageUrl (search_url cityA) 1 :: rest ∧
      ∀ u ∈ rest, ∃ p, 2 ≤ p ∧ p ≤ nA ∧ u = pageUrl (search_url cityA) p) := by
  constructor
  · rw [obtain_scraped_data_spec worldP cityP n rowsOf firstRows htitleP hfirstP
      hlastP hnP hpagesP]
  · exact obtain_scraped_result_trace_spec worldA cityA L nA htitleA hlastA hnA

/-- C5 witness: the amended statement evaluated on the concrete pandas web and
the concrete async web. -/
theorem C5_witness :
    (obtain_scraped_data wPandas "berlin".toList).2
      = .listing (quandoo_url "berlin".toList) ::
          (intRange 2 2).map
            (fun p => .listing (pageUrl (quandoo_url "berlin".toList) p)) ∧
    (∃ rest,
      listingUrls (obtain_scraped_result_for_city wAsyncEmpty "b".toList 10).2
        = search_url "b".toList :: pageUrl (search_url "b".toList) 1 :: rest ∧
      ∀ u ∈ rest, ∃ p, 2 ≤ p ∧ p ≤ 1 ∧ u = pageUrl (search_url "b".toList) p) :=
  C5_listing_urls wPandas wAsyncEmpty "berlin".toList "b".toList 10 2 1
    (fun _ => [pandasRow]) [pandasRow, pandasRow] (by decide) (by decide)
    (by decide) (by omega) (by decide) (by decide) (by decide) (by omega)

/-! ## C9 — the accumulated count never exceeds the result limit -/

/-- A successful page parse adds exactly the appended rows to the counter, and
preserves `count ≤ result_limit` (each card is appended only after the
`count ≥ limit` guard has failed). -/
lemma parse_all_ok_count (world : List Char → Soup) (L : ℤ) :
    ∀ (cards : List Card) (st : ScrapeState) (rows : List JsonVal)
      (st2 : ScrapeState) (tr : List Fetch),
      parse_all_restaurant_data_from_single_page world L st cards
        = (.ok rows, st2, tr) →
      st2.scraped_restaurants_count = st.scraped_restaurants_count + rows.length ∧
      ((st.scraped_restaurants_count : ℤ) ≤ L →
        (st2.scraped_restaurants_count : ℤ) ≤ L)
  | [], st, rows, st2, tr, h => by
    simp only [parse_all_restaurant_data_from_single_page, Prod.mk.injEq,
      Except.ok.injEq] at h
    obtain ⟨h1, h2, h3⟩ := h
    subst h2
    subst h1
    simp
  | c :: cs, st, rows, st2, tr, h => by
    simp only [parse_all_restaurant_data_from_single_page] at h
    split at h
    · simp only [Prod.mk.injEq, Except.ok.injEq] at h
      obtain ⟨h1, h2, h3⟩ := h
      subst h2
      subst h1
      simp
    · rename_i hL
      split at h
      · rename_i e tr1 hpi
        simp at h
      · rename_i r tr1 hpi
        split at h
        · rename_i e st3 tr3 hrec
          simp at h
        · rename_i rows2 st3 tr3 hrec
          simp only [Prod.mk.injEq, Except.ok.injEq] at h
          obtain ⟨h1, h2, h3⟩ := h
          subst h2
          subst h1
          have ih := parse_all_ok_count world L cs _ rows2 st3 tr3 hrec
          simp only at ih
          constructor
          · simp only [List.length_cons]
            omega
          · intro _
            refine ih.2 ?_
            push_cast
            omega

/-- A successful run of the page loop preserves the limit bound on the total
accumulated record count. -/
lemma scrape_pages_ok_count (world : List Char → Soup) (L : ℤ) (surl : List Char) :
    ∀ (ps : List ℤ) (st : ScrapeState) (pages : List (List JsonVal))
      (tr : List Fetch),
      scrape_pages world L surl st ps = (.ok pages, tr) →
      (st.scraped_restaurants_count : ℤ) ≤ L →
      ((st.scraped_restaurants_count + (pages.map List.length).sum : ℕ) : ℤ) ≤ L
  | [], st, pages, tr, h, hle => by
    simp only [scrape_pages, Prod.mk.injEq, Except.ok.injEq] at h
    obtain ⟨h1, h2⟩ := h
    subst h1
    simpa using hle
  | p :: ps, st, pages, tr, h, hle => by
    simp only [scrape_pages] at h
    split at h
    · simp only [Prod.mk.injEq, Except.ok.injEq] at h
      obtain ⟨h1, h2⟩ := h
      subst h1
      simpa using hle
    · split at h
      · rename_i e st1 tr1 hpa
        simp at h
      · rename_i rows st1 tr1 hpa
        split at h
        · rename_i e tr2 hrec
          simp at h
        · rename_i pages2 tr2 hrec
          simp only [Prod.mk.injEq, Except.ok.injEq] at h
          obtain ⟨h1, h2⟩ := h
          subst h1
          have hc := parse_all_ok_count world L _ st rows st1 tr1 hpa
          have ih := scrape_pages_ok_count world L surl ps st1 pages2 tr2
            hrec (hc.2 hle)
          simp only [List.map_cons, List.sum_cons]
          have hcount := hc.1
          push_cast at ih ⊢
          omega

/-- C9: every successful per-page accumulation step adds exactly its appended
records to `scraped_restaurants_count` and preserves `count ≤ result_limit`;
consequently, for a non-negative configured limit, a completed crawl's output
holds at most `result_limit` records, even when the limit is hit mid-page. -/
theorem C9_limit_never_exceeded (world : List Char → Soup) (city : List Char)
    (L : ℤ) :
    (∀ (cards : List Card) (st : ScrapeState) (rows : List JsonVal)
        (st2 : ScrapeState) (tr : List Fetch),
      parse_all_restaurant_data_from_single_page world L st cards
        = (.ok rows, st2, tr) →
      st2.scraped_restaurants_count = st.scraped_restaurants_count + rows.length ∧
      ((st.scraped_restaurants_count : ℤ) ≤ L →
        (st2.scraped_restaurants_count : ℤ) ≤ L)) ∧
    (0 ≤ L → ∀ (lst : List JsonVal) (tr : List Fetch),
      obtain_scraped_result_for_city world city L = (.ok (some lst), tr) →
      (lst.length : ℤ) ≤ L) := by
  constructor
  · intro cards st rows st2 tr h
    exact parse_all_ok_count world L cards st rows st2 tr h
  · intro hL lst tr h
    simp only [obtain_scraped_result_for_city] at h
    split at h
    · simp at h
    · split at h
      · simp at h
      · rename_i n hfl
        split at h
        · simp at h
        · rename_i pages tr2 hsc
          simp only [Prod.mk.injEq, Except.ok.injEq, Option.some.injEq] at h
          obtain ⟨h1, h2⟩ := h
          have hb := scrape_pages_ok_count world L (search_url city)
            (intRange 1 n) ⟨0, false⟩ pages tr2 hsc (by simpa using hL)
          have hmap : pages.map combine_json_strings = pages := by
            rw [show combine_json_strings = id from rfl, List.map_id]
          rw [hmap] at h1
          rw [← h1, List.length_flatten]
          simpa using hb

/-- C9 witness: a completed crawl on the empty-page web stays within the
limit. -/
theorem C9_witness :
    obtain_scraped_result_for_city wAsyncEmpty "b".toList 10
      = (.ok (some []), [.listing (search_url "b".toList),
          .listing (pageUrl (search_url "b".toList) 1)]) ∧
    (([] : List JsonVal).length : ℤ) ≤ 10 := by
  constructor
  · rfl
  · exact (C9_limit_never_exceeded wAsyncEmpty "b".toList 10).2 (by norm_num) []
      [.listing (search_url "b".toList), .listing (pageUrl (search_url "b".toList) 1)]
      (by rfl)

/-! ## C1 — the configured result limit -/

/-- A card the async scraper processes without an exception. -/
def goodCard (world : List Char → Soup) (c : Card) : Bool :=
  exceptIsOk (parse_individual_restaurant_data_from_scrape world c).1

/-- Number of cards of the listing page `p`. -/
def pageCardCount (world : List Char → Soup) (surl : List Char) (p : ℤ) : ℕ :=
  (world (pageUrl surl p)).cards.length

/-- Reference recursion for the number of pages the async loop fetches, given
the remaining quota and the successive page card counts: a page is fetched, and
the loop continues past it exactly when its card count does not exceed the
remaining quota (the limit flag is only tripped by a card *scan* that sees the
quota already exhausted). -/
def fetchedCount (rem : ℕ) : List ℕ → ℕ
  | [] => 0
  | c :: cs => (if rem < c then 0 else fetchedCount (rem - c) cs) + 1

/-- The loop never fetches more pages than exist. -/
lemma fetchedCount_le_length : ∀ (rem : ℕ) (cs : List ℕ),
    fetchedCount rem cs ≤ cs.length
  | _, [] => Nat.le_refl 0
  | rem, c :: cs => by
    simp only [fetchedCount, List.length_cons]
    split
    · omega
    · have := fetchedCount_le_length (rem - c) cs
      omega

/-- One page of good cards: the parse succeeds, appends
`min (#cards) (remaining quota)` records, adds them to the counter, and trips
the limit flag exactly when the page holds *more* cards than the remaining
quota. -/
lemma parse_all_good_spec (world : List Char → Soup) (L : ℤ) :
    ∀ (cards : List Card) (st : ScrapeState),
      (∀ c ∈ cards, goodCard world c = true) →
      ∃ rows tr,
        parse_all_restaurant_data_from_single_page world L st cards
          = (.ok rows,
             ⟨st.scraped_restaurants_count + rows.length,
              st.reached_result_limit
                || decide ((L - st.scraped_restaurants_count).toNat < cards.length)⟩,
             tr) ∧
        rows.length = min cards.length (L - st.scraped_restaurants_count).toNat
  | [], st, h => by
    refine ⟨[], [], ?_, by simp⟩
    simp only [parse_all_restaurant_data_from_single_page]
    obtain ⟨cnt, fl⟩ := st
    simp
  | c :: cs, st, h => by
    by_cases hL : L ≤ (st.scraped_restaurants_count : ℤ)
    · have h0 : (L - st.scraped_restaurants_count).toNat = 0 := by omega
      refine ⟨[], [], ?_, by simp [h0]⟩
      simp only [parse_all_restaurant_data_from_single_page]
      rw [if_pos hL]
      obtain ⟨cnt, fl⟩ := st
      simp only at h0
      simp [h0]
    · have hgc := h c (List.mem_cons_self _ _)
      rw [goodCard, exceptIsOk_iff] at hgc
      obtain ⟨r, hr⟩ := hgc
      have hpi : parse_individual_restaurant_data_from_scrape world c
          = (.ok r, (parse_individual_restaurant_data_from_scrape world c).2) := by
        rw [← hr]
      obtain ⟨rows', tr', hrec, hlen⟩ := parse_all_good_spec world L cs
        { st with scraped_restaurants_count := st.scraped_restaurants_count + 1 }
        (fun c' hc' => h c' (List.mem_cons_of_mem _ hc'))
      refine ⟨model_dump_json r :: rows',
        (parse_individual_restaurant_data_from_scrape world c).2 ++ tr', ?_, ?_⟩
      · simp only [parse_all_restaurant_data_from_single_page]
        rw [if_neg hL, hpi, hrec]
        simp only [Prod.mk.injEq, true_and, and_true]
        have hmk : ∀ (a b : ℕ) (x y : Bool), a = b → x = y →
            (⟨a, x⟩ : ScrapeState) = ⟨b, y⟩ := by
          intro a b x y h1 h2
          rw [h1, h2]
        refine hmk _ _ _ _ ?_ ?_
        · simp only [List.length_cons]
          omega
        · congr 1
          rw [decide_eq_decide]
          simp only [List.length_cons]
          omega
      · simp only [List.length_cons, hlen]
        omega
  termination_by cards => cards.length

/-- Unfolding of the page loop at a page whose parse result is known. -/
lemma scrape_pages_cons_ok (world : List Char → Soup) (L : ℤ) (surl : List Char)
    (p : ℤ) (ps : List ℤ) (st : ScrapeState) (rows : List JsonVal)
    (st1 : ScrapeState) (tr1 : List Fetch)
    (hfl : st.reached_result_limit = false)
    (hpa : parse_all_restaurant_data_from_single_page world L st
        (world (pageUrl surl p)).cards = (.ok rows, st1, tr1)) :
    scrape_pages world L surl st (p :: ps)
      = (match scrape_pages world L surl st1 ps with
         | (.error e, tr2) =>
           (.error e, (Fetch.listing (pageUrl surl p) :: tr1) ++ tr2)
         | (.ok pages, tr2) =>
           (.ok (rows :: pages), (Fetch.listing (pageUrl surl p) :: tr1) ++ tr2)) := by
  simp only [scrape_pages]
  rw [if_neg (by rw [hfl]; simp), hpa]

/-- The async page loop over good pages: it succeeds, collects
`min (total cards) (remaining quota)` records overall, and its listing fetches
are exactly the first `fetchedCount` pages in order. -/
lemma scrape_pages_good_spec (world : List Char → Soup) (L : ℤ) (surl : List Char) :
    ∀ (ps : List ℤ) (st : ScrapeState),
      st.reached_result_limit = false →
      (∀ p ∈ ps, ∀ c ∈ (world (pageUrl surl p)).cards, goodCard world c = true) →
      ∃ pages tr,
        scrape_pages world L surl st ps = (.ok pages, tr) ∧
        (pages.map List.length).sum
          = min (ps.map (pageCardCount world surl)).sum
              (L - st.scraped_restaurants_count).toNat ∧
        listingUrls tr
          = (ps.take (fetchedCount (L - st.scraped_restaurants_count).toNat
              (ps.map (pageCardCount world surl)))).map (pageUrl surl)
  | [], st, hfl, h =>
    ⟨[], [], rfl, by simp, by simp [fetchedCount, listingUrls_nil]⟩
  | p :: ps, st, hfl, h => by
    obtain ⟨rows, tr1, hpa, hlen⟩ := parse_all_good_spec world L
      (world (pageUrl surl p)).cards st (h p (List.mem_cons_self _ _))
    have hptr := parse_all_trace world L (world (pageUrl surl p)).cards st
    rw [hpa] at hptr
    simp only at hptr
    rw [Nat.min_comm] at hlen
    by_cases hover :
        (L - st.scraped_restaurants_count).toNat < (world (pageUrl surl p)).cards.length
    · have hflag : (st.reached_result_limit
          || decide ((L - st.scraped_restaurants_count).toNat
              < (world (pageUrl surl p)).cards.length)) = true := by
        rw [decide_eq_true hover, Bool.or_true]
      have hreach := scrape_pages_reached world L surl ps
        ⟨st.scraped_restaurants_count + rows.length,
         st.reached_result_limit
           || decide ((L - st.scraped_restaurants_count).toNat
               < (world (pageUrl surl p)).cards.length)⟩ hflag
      have hrows : rows.length = (L - st.scraped_restaurants_count).toNat := by
        rw [hlen]
        exact Nat.min_eq_left (Nat.le_of_lt hover)
      refine ⟨[rows], .listing (pageUrl surl p) :: tr1, ?_, ?_, ?_⟩
      · rw [scrape_pages_cons_ok world L surl p ps st rows _ tr1 hfl hpa, hreach]
        simp
      · simp only [List.map_cons, List.sum_cons, List.map_nil, List.sum_nil]
        rw [hrows]
        simp only [pageCardCount]
        omega
      · rw [listingUrls_cons_listing, hptr]
        have hfc : fetchedCount (L - (st.scraped_restaurants_count : ℤ)).toNat
            ((p :: ps).map (pageCardCount world surl)) = 1 := by
          simp only [List.map_cons, fetchedCount, pageCardCount]
          rw [if_pos hover]
        rw [hfc]
        simp
    · have hflag : (st.reached_result_limit
          || decide ((L - st.scraped_restaurants_count).toNat
              < (world (pageUrl surl p)).cards.length)) = false := by
        rw [decide_eq_false hover, Bool.or_false, hfl]
      have hrows : rows.length = (world (pageUrl surl p)).cards.length := by
        rw [hlen]
        exact Nat.min_eq_right (Nat.le_of_not_lt hover)
      obtain ⟨pages', tr', hrec, hsum, htr⟩ := scrape_pages_good_spec world L surl ps
        ⟨st.scraped_restaurants_count + rows.length,
         st.reached_result_limit
           || decide ((L - st.scraped_restaurants_count).toNat
               < (world (pageUrl surl p)).cards.length)⟩ hflag
        (fun q hq c hc => h q (List.mem_cons_of_mem _ hq) c hc)
      simp only at hsum htr
      have hrem : (L - (st.scraped_restaurants_count + rows.length : ℕ)).toNat
          = (L - st.scraped_restaurants_count).toNat
            - (world (pageUrl surl p)).cards.length := by
        rw [hrows]
        push_cast
        omega
      refine ⟨rows :: pages', (Fetch.listing (pageUrl surl p) :: tr1) ++ tr', ?_, ?_, ?_⟩
      · rw [scrape_pages_cons_ok world L surl p ps st rows _ tr1 hfl hpa, hrec]
      · simp only [List.map_cons, List.sum_cons]
        rw [hsum, hrem, hrows]
        simp only [pageCardCount]
        omega
      · rw [listingUrls_append, listingUrls_cons_listing, hptr, htr, hrem]
        have hfc : fetchedCount (L - (st.scraped_restaurants_count : ℤ)).toNat
            ((p :: ps).map (pageCardCount world surl))
            = fetchedCount ((L - (st.scraped_restaurants_count : ℤ)).toNat
                - (world (pageUrl surl p)).cards.length)
                (ps.map (pageCardCount world surl)) + 1 := by
          simp only [List.map_cons, fetchedCount, pageCardCount]
          rw [if_neg hover]
        rw [hfc]
        simp [List.take_succ_cons]
  termination_by ps => ps.length

/-- The number of pages `1..n`. -/
lemma intRange_length (lo hi : ℤ) : (intRange lo hi).length = (hi + 1 - lo).toNat := by
  simp [intRange]

/-- C1 amended: with a limit `0 ≤ L` strictly below the total card count, a
crawl over good pages yields *exactly* `L` records, and the listing fetches are
the bare `search_url` followed by pages `1..k` in order, where `k` is given by
the loop's actual stopping rule (`fetchedCount`): pages are fetched until one
page's card scan overshoots the remaining quota.  When the `L`-th record is the
last card of its page, the quota is exhausted only at the *next* page's first
card check, so that page is still fetched (yielding no records) — the claim's
"no fetch beyond the page containing the `L`-th record" fails in exactly that
boundary case (see the counterexample). -/
theorem C1_limit_exact_records (world : List Char → Soup) (city : List Char)
    (L n : ℤ)
    (htitle : (world (search_url city)).title ≠ "Not found".toList)
    (hlast : find_last_page_pydantic (world (search_url city)) = .ok n)
    (hgood : ∀ p ∈ intRange 1 n, ∀ c ∈ (world (pageUrl (search_url city) p)).cards,
      goodCard world c = true)
    (hLlt : L.toNat
      < ((intRange 1 n).map (pageCardCount world (search_url city))).sum) :
    ∃ lst tr, obtain_scraped_result_for_city world city L = (.ok (some lst), tr) ∧
      lst.length = L.toNat ∧
      listingUrls tr
        = search_url city ::
            ((intRange 1 n).take (fetchedCount L.toNat
              ((intRange 1 n).map (pageCardCount world (search_url city))))).map
              (pageUrl (search_url city)) ∧
      fetchedCount L.toNat
          ((intRange 1 n).map (pageCardCount world (search_url city)))
        ≤ n.toNat := by
  obtain ⟨pages, tr2, hsc, hsum, htr⟩ := scrape_pages_good_spec world L
    (search_url city) (intRange 1 n) ⟨0, false⟩ rfl hgood
  have hzero : ((L - ((⟨0, false⟩ : ScrapeState).scraped_restaurants_count : ℤ)).toNat)
      = L.toNat := by
    simp
  rw [hzero] at hsum htr
  have hmap : pages.map combine_json_strings = pages := by
    rw [show combine_json_strings = id from rfl, List.map_id]
  refine ⟨pages.flatten, .listing (search_url city) :: tr2, ?_, ?_, ?_, ?_⟩
  · simp only [obtain_scraped_result_for_city, if_neg htitle, hlast, hsc, hmap]
  · rw [List.length_flatten, hsum]
    omega
  · rw [listingUrls_cons_listing, htr]
  · have h1 := fetchedCount_le_length L.toNat
      ((intRange 1 n).map (pageCardCount world (search_url city)))
    rw [List.length_map, intRange_length] at h1
    omega

/-- A complete listing card linking to the detail page `/r`. -/
def goodAsyncCard : Card :=
  { merchant_name := some "N".toList, merchant_location := some "L".toList,
    merchant_card_cuisine := some "Cu".toList, reviews_score := none,
    span_texts := [], first_anchor := some (some "/r".toList) }

/-- The detail/menu document served for every non-listing URL. -/
def detailSoup : Soup :=
  { title := "d".toList, pagination_anchor_texts := none, cards := [],
    restaurant_tags_span_texts := some [],
    merchant_address_span_texts := some ["Addr".toList],
    h5_texts_with_next_div := [] }

/-- A two-page async web: pages 1 and 2 hold 2 and 3 good cards; every other
URL serves the detail document. -/
def wBoundary : List Char → Soup := fun url =>
  if url = search_url "b".toList then
    { title := "T".toList, pagination_anchor_texts := some ["2".toList],
      cards := [goodAsyncCard, goodAsyncCard], restaurant_tags_span_texts := none,
      merchant_address_span_texts := none, h5_texts_with_next_div := [] }
  else if url = pageUrl (search_url "b".toList) 1 then
    { title := "T".toList, pagination_anchor_texts := some ["2".toList],
      cards := [goodAsyncCard, goodAsyncCard], restaurant_tags_span_texts := none,
      merchant_address_span_texts := none, h5_texts_with_next_div := [] }
  else if url = pageUrl (search_url "b".toList) 2 then
    { title := "T".toList, pagination_anchor_texts := some ["2".toList],
      cards := [goodAsyncCard, goodAsyncCard, goodAsyncCard],
      restaurant_tags_span_texts := none,
      merchant_address_span_texts := none, h5_texts_with_next_div := [] }
  else detailSoup

/-- The record count of a crawl result, when the crawl succeeded with data. -/
def resultCount (r : Except String (Option (List JsonVal)) × List Fetch) :
    Option ℕ :=
  match r.1 with
  | .ok (some lst) => some lst.length
  | _ => none

/-- C1 counterexample: with limit `L = 2` on a 2-then-3-card city, the crawl
yields exactly 2 records and the 2nd (`L`-th) record is the last card of page 1
(which has exactly 2 cards) — yet the page-2 listing URL *is* fetched, refuting
"when the L-th record is the last card of a page, the following page is not
fetched". -/
theorem C1_counterexample :
    resultCount (obtain_scraped_result_for_city wBoundary "b".toList 2) = some 2 ∧
    Fetch.listing (pageUrl (search_url "b".toList) 2)
      ∈ (obtain_scraped_result_for_city wBoundary "b".toList 2).2 ∧
    (wBoundary (pageUrl (search_url "b".toList) 1)).cards.length = 2 ∧
    (wBoundary (pageUrl (search_url "b".toList) 2)).cards.length = 3 := by
  refine ⟨by decide, by decide, rfl, rfl⟩

/-- C1 witness: the amended statement evaluated on the boundary web with
limit 3. -/
theorem C1_witness :
    ∃ lst tr,
      obtain_scraped_result_for_city wBoundary "b".toList 3 = (.ok (some lst), tr) ∧
      lst.length = (3 : ℤ).toNat ∧
      listingUrls tr
        = search_url "b".toList ::
            ((intRange 1 2).take (fetchedCount (3 : ℤ).toNat
              ((intRange 1 2).map (pageCardCount wBoundary (search_url "b".toList))))).map
              (pageUrl (search_url "b".toList)) ∧
      fetchedCount (3 : ℤ).toNat
          ((intRange 1 2).map (pageCardCount wBoundary (search_url "b".toList)))
        ≤ (2 : ℤ).toNat :=
  C1_limit_exact_records wBoundary "b".toList 3 2 (by decide) (by decide)
    (by decide) (by decide)
